import Mathlib

/-!
Shallow embedding of the Amber-Foods food-ordering backend
(`api/routes/cart.py`, `orders.py`, `payments.py`, `reviews.py`,
`addresses.py`, `delivery.py`) and proofs about its cart/order/payment
lifecycle logic.

Conventions of the embedding:
* Mongo documents become Lean structures; monetary amounts (`float` in the
  store) are modelled as `ℚ`, quantities and ratings (`int`) as `ℤ`,
  identifiers as `String` (or `ℕ` where the store generates them and the
  proofs need freshness).
* `collection.find_one(filter)` becomes `List.find?` on the collection list,
  `update_one(filter, {"$set": ...})` becomes `updateFirst`,
  `delete_one` becomes `removeFirst`, `insert_one` appends,
  `update_many` becomes `List.map` guarded by the filter.
* A route that can `raise HTTPException` returns `Except HTTPError α`.
* Timestamps (`created_at`/`updated_at`) are irrelevant to every claim and
  are left out of the document structures; `datetime.utcnow()` is passed as
  a `ℕ` parameter where a claim's code stores it in data (delivery history).
-/

/-- `update_one(filter, {"$set": f})`: apply `f` to the first element
satisfying `p`, leave the rest unchanged. -/
def updateFirst {α : Type} (p : α → Bool) (f : α → α) : List α → List α
  | [] => []
  | x :: xs => if p x then f x :: xs else x :: updateFirst p f xs

/-- `delete_one(filter)`: remove the first element satisfying `p`. -/
def removeFirst {α : Type} (p : α → Bool) : List α → List α
  | [] => []
  | x :: xs => if p x then xs else x :: removeFirst p xs

/-- HTTP error responses raised by the route handlers. -/
inductive HTTPError where
  | notFound (detail : String)
  | badRequest (detail : String)
  | serverError (detail : String)
deriving DecidableEq, Repr

/-! ## Catalog (`menu.py` documents) -/

/-- One entry of a menu item's `images` list; only the `url` key is read by
the cart code (`images[0].get("url")`). -/
structure MenuImage where
  url : Option String
deriving DecidableEq, Repr

/-- A `menu_items` document (the fields read by cart/order/review code). -/
structure MenuItem where
  id : String
  name : String
  price : ℚ
  is_available : Bool
  images : List MenuImage
  avg_rating : ℚ
  review_count : ℕ
deriving DecidableEq, Repr

/-! ## Cart (`cart.py`) -/

/-- One line of a cart's `items` array. -/
structure CartItem where
  id : String
  menu_item_id : String
  name : String
  price : ℚ
  quantity : ℤ
  subtotal : ℚ
  image_url : Option String
deriving DecidableEq, Repr

/-- A `carts` document. -/
structure Cart where
  id : String
  user_id : String
  items : List CartItem
  total : ℚ
deriving DecidableEq, Repr

/-- The `total` recomputation done after every cart mutation:
`sum(item.get("subtotal", 0) for item in items)`. -/
def calcTotal (items : List CartItem) : ℚ :=
  (items.map (fun it => it.subtotal)).sum

/-- `POST /cart/items` (`add_item_to_cart`), acting on the caller's cart
(already fetched or lazily created by the route).  `newLineId` stands for the
`str(ObjectId())` generated for a fresh line. -/
def add_item_to_cart (menu : List MenuItem) (cart : Cart)
    (menu_item_id : String) (quantity : ℤ) (newLineId : String) :
    Except HTTPError Cart :=
  match menu.find? (fun m => m.id == menu_item_id) with
  | none => .error (.notFound "Menu item not found")
  | some menu_item =>
    if menu_item.is_available = false then
      .error (.badRequest "Menu item is not available")
    else
      let item_price := menu_item.price
      let item_subtotal := item_price * quantity
      let image_url := (menu_item.images.head?).bind (fun im => im.url)
      let items :=
        match cart.items.find? (fun it => it.menu_item_id == menu_item_id) with
        | some existing_item =>
          updateFirst (fun it => it.id == existing_item.id)
            (fun it => { it with
              quantity := quantity
              price := item_price
              subtotal := item_subtotal }) cart.items
        | none =>
          cart.items ++ [{
            id := newLineId
            menu_item_id := menu_item_id
            name := menu_item.name
            price := item_price
            quantity := quantity
            subtotal := item_subtotal
            image_url := image_url }]
      .ok { cart with items := items, total := calcTotal items }

/-- `PUT /cart/items/{item_id}` (`update_cart_item`): recompute the line's
subtotal from its *stored* price and the new quantity. -/
def update_cart_item (cart : Cart) (item_id : String) (quantity : ℤ) :
    Except HTTPError Cart :=
  match cart.items.find? (fun it => it.id == item_id) with
  | none => .error (.notFound "Item not found in cart")
  | some item_to_update =>
    let item_subtotal := item_to_update.price * quantity
    let items :=
      updateFirst (fun it => it.id == item_id)
        (fun it => { it with quantity := quantity, subtotal := item_subtotal })
        cart.items
    .ok { cart with items := items, total := calcTotal items }

/-- `DELETE /cart/items/{item_id}` (`remove_cart_item`). -/
def remove_cart_item (cart : Cart) (item_id : String) :
    Except HTTPError Cart :=
  match cart.items.find? (fun it => it.id == item_id) with
  | none => .error (.notFound "Item not found in cart")
  | some _ =>
    let items := cart.items.filter (fun it => !(it.id == item_id))
    .ok { cart with items := items, total := calcTotal items }

/-- `DELETE /cart/` (`clear_cart`): `$set {items: [], total: 0}`. -/
def clear_cart (cart : Cart) : Cart :=
  { cart with items := [], total := 0 }

/-! ### `GET /cart/` (`get_user_cart`), for claim C10 -/

/-- The carts collection together with the store's id generator. -/
structure CartsDb where
  carts : List Cart
  nextId : ℕ
deriving DecidableEq, Repr

/-- `GET /cart/` (`get_user_cart`): fetch (or lazily create) the user's cart,
then *return* it with `total` recomputed as the sum of line subtotals; the
recomputed total is not written back (the only write on this path is the
lazy creation).  Returns the post-state of the store and the response body. -/
def get_user_cart (db : CartsDb) (user_id : String) : CartsDb × Cart :=
  match db.carts.find? (fun c => c.user_id == user_id) with
  | some cart =>
    (db, { cart with total := calcTotal cart.items })
  | none =>
    let fresh : Cart :=
      { id := toString db.nextId
        user_id := user_id
        items := []
        total := 0 }
    ({ carts := db.carts ++ [fresh], nextId := db.nextId + 1 },
     { fresh with total := calcTotal fresh.items })

/-! ## Orders (`orders.py`) -/

/-- An `addresses` document, as read by `orders.py` (only existence and
ownership matter there; the full shape is in the addresses section below). -/
structure AddressRef where
  id : String
  user_id : String
deriving DecidableEq, Repr

/-- One line of an order's immutable `items` snapshot. -/
structure OrderItem where
  id : String
  menu_item_id : String
  name : String
  price : ℚ
  quantity : ℤ
  subtotal : ℚ
deriving DecidableEq, Repr

/-- An `orders` document.  `status` and `payment_status` hold the enum
`.value` strings that the code stores ("PENDING", "CONFIRMED", ...). -/
structure OrderDoc where
  id : String
  user_id : String
  items : List OrderItem
  delivery_address_id : String
  special_instructions : Option String
  subtotal : ℚ
  delivery_fee : ℚ
  tax : ℚ
  total_amount : ℚ
  status : String
  payment_status : String
  payment_reference : Option String
  delivery_status : Option String
deriving DecidableEq, Repr

/-- The collections touched by `orders.py`. -/
structure OrderEnv where
  menu_items : List MenuItem
  carts : List Cart
  addresses : List AddressRef
  orders : List OrderDoc
deriving DecidableEq, Repr

/-- The per-cart-line loop of `create_order`: re-fetch each line's catalog
item by id (404 if it vanished, 400 if no longer available) and rebuild the
line from the *current* catalog price; also accumulates the order subtotal.
`fresh k` stands for the `str(ObjectId())` generated for the k-th line. -/
def buildOrderItems (menu : List MenuItem) (fresh : ℕ → String) :
    List CartItem → ℕ → Except HTTPError (List OrderItem × ℚ)
  | [], _ => .ok ([], 0)
  | cart_item :: rest, k =>
    match menu.find? (fun m => m.id == cart_item.menu_item_id) with
    | none =>
      .error (.notFound ("Menu item not found: " ++ cart_item.menu_item_id))
    | some menu_item =>
      if menu_item.is_available = false then
        .error (.badRequest ("Menu item is not available: " ++ menu_item.name))
      else
        match buildOrderItems menu fresh rest (k + 1) with
        | .error e => .error e
        | .ok (items, sub) =>
          let item_price := menu_item.price
          let item_subtotal := item_price * cart_item.quantity
          .ok ({ id := fresh k
                 menu_item_id := menu_item.id
                 name := menu_item.name
                 price := item_price
                 quantity := cart_item.quantity
                 subtotal := item_subtotal } :: items,
               item_subtotal + sub)

/-- `POST /orders/` (`create_order`).  Checks cart ownership and
non-emptiness and address ownership, re-prices every line from the catalog,
derives the fixed charges, inserts the order with both statuses `"PENDING"`,
and then clears the source cart's `items` — note the cart-clear `$set` writes
`items: []` but does *not* touch the stored `total`.
`orderId`/`fresh` stand for the store-generated ObjectIds. -/
def create_order (env : OrderEnv) (current_user : String)
    (cart_id delivery_address_id : String)
    (special_instructions : Option String)
    (orderId : String) (fresh : ℕ → String) :
    Except HTTPError (OrderEnv × OrderDoc) :=
  match env.carts.find? (fun c => c.id == cart_id && c.user_id == current_user) with
  | none => .error (.notFound "Cart not found")
  | some cart =>
    if cart.items.length = 0 then
      .error (.badRequest "Cart is empty")
    else
      match env.addresses.find?
          (fun a => a.id == delivery_address_id && a.user_id == current_user) with
      | none => .error (.notFound "Delivery address not found")
      | some _ =>
        match buildOrderItems env.menu_items fresh cart.items 0 with
        | .error e => .error e
        | .ok (order_items, subtotal) =>
          let delivery_fee : ℚ := 5
          let tax_rate : ℚ := 75 / 1000
          let tax := subtotal * tax_rate
          let total_amount := subtotal + delivery_fee + tax
          let order : OrderDoc :=
            { id := orderId
              user_id := current_user
              items := order_items
              delivery_address_id := delivery_address_id
              special_instructions := special_instructions
              subtotal := subtotal
              delivery_fee := delivery_fee
              tax := tax
              total_amount := total_amount
              status := "PENDING"
              payment_status := "PENDING"
              payment_reference := none
              delivery_status := none }
          let carts :=
            updateFirst (fun c => c.id == cart_id)
              (fun c => { c with items := [] }) env.carts
          .ok ({ env with orders := env.orders ++ [order], carts := carts },
               order)

/-- `PUT /orders/{order_id}/cancel` (`cancel_order`): allowed only from
`"PENDING"` or `"CONFIRMED"`; sets the status to `"CANCELLED"` and returns
the re-fetched order. -/
def cancel_order (orders : List OrderDoc) (current_user order_id : String) :
    Except HTTPError (List OrderDoc × Option OrderDoc) :=
  match orders.find? (fun o => o.id == order_id && o.user_id == current_user) with
  | none => .error (.notFound "Order not found")
  | some order =>
    if !(order.status == "PENDING" || order.status == "CONFIRMED") then
      .error (.badRequest "Order cannot be cancelled at this stage")
    else
      let updated :=
        updateFirst (fun o => o.id == order_id)
          (fun o => { o with status := "CANCELLED" }) orders
      .ok (updated, updated.find? (fun o => o.id == order_id))

/-! ## Payments (`payments.py`)

Notification emission is a `background_tasks.add_task` run after the
response is sent; it writes only to the notifications collection and never
touches payments or orders, so it is outside the reconciliation state
modelled here. -/

/-- The `data["data"]` object of a Paystack verify response: its `status`
string drives the PAID/FAILED mapping, the rest is the raw audit payload. -/
structure TransactionData where
  status : String
  raw : String
deriving DecidableEq, Repr

/-- A `payments` document. -/
structure Payment where
  order_id : String
  user_id : String
  amount : ℚ
  reference : String
  provider : String
  status : String
  transaction_data : Option TransactionData
deriving DecidableEq, Repr

/-- The gateway's answer to `GET /transaction/verify/{reference}`:
HTTP status code, top-level `status` flag, `message`, and the data object. -/
structure GatewayVerifyResponse where
  http_status : ℕ
  status : Bool
  message : String
  data : TransactionData
deriving DecidableEq, Repr

/-- The collections touched by payment reconciliation. -/
structure PayDb where
  payments : List Payment
  orders : List OrderDoc
deriving DecidableEq, Repr

/-- Body returned by `verify_payment`. -/
structure VerifyBody where
  success : Bool
  status : String
  data : TransactionData
deriving DecidableEq, Repr

/-- `GET /payments/paystack/verify/{reference}` (`verify_payment`): look up
the caller's payment by reference (404 if absent), call the gateway
(`resp` is its answer; non-200 or a false flag is a 500), map
`data.status == "success"` to `"PAID"` and anything else to `"FAILED"`,
`$set` that status plus the raw payload on the payment matched by reference
and the status on the order matched by `payment_reference`. -/
def verify_payment (db : PayDb) (current_user reference : String)
    (resp : GatewayVerifyResponse) :
    Except HTTPError (PayDb × VerifyBody) :=
  match db.payments.find?
      (fun p => p.reference == reference && p.user_id == current_user) with
  | none => .error (.notFound "Payment not found")
  | some _ =>
    if resp.http_status ≠ 200 then
      .error (.serverError "Failed to verify payment")
    else if resp.status = false then
      .error (.serverError resp.message)
    else
      let payment_status := if resp.data.status == "success" then "PAID" else "FAILED"
      let payments :=
        updateFirst (fun p => p.reference == reference)
          (fun p => { p with
            status := payment_status
            transaction_data := some resp.data }) db.payments
      let orders :=
        updateFirst (fun o => o.payment_reference == some reference)
          (fun o => { o with payment_status := payment_status }) db.orders
      .ok ({ payments := payments, orders := orders },
           { success := true, status := payment_status, data := resp.data })

/-- Body returned by `paystack_callback` (it reports gateway failures as a
JSON body instead of raising). -/
structure CallbackBody where
  success : Bool
  status : Option String
  message : String
deriving DecidableEq, Repr

/-- `GET /payments/paystack/callback` (`paystack_callback`): 400 when no
`reference` query parameter; gateway failures are reported in the body with
no store write; otherwise perform the same two `$set` updates as
`verify_payment`. -/
def paystack_callback (db : PayDb) (reference : Option String)
    (resp : GatewayVerifyResponse) :
    Except HTTPError (PayDb × CallbackBody) :=
  match reference with
  | none => .error (.badRequest "No reference provided")
  | some reference =>
    if resp.http_status ≠ 200 then
      .ok (db, { success := false, status := none,
                 message := "Failed to verify payment" })
    else if resp.status = false then
      .ok (db, { success := false, status := none, message := resp.message })
    else
      let payment_status := if resp.data.status == "success" then "PAID" else "FAILED"
      let payments :=
        updateFirst (fun p => p.reference == reference)
          (fun p => { p with
            status := payment_status
            transaction_data := some resp.data }) db.payments
      let orders :=
        updateFirst (fun o => o.payment_reference == some reference)
          (fun o => { o with payment_status := payment_status }) db.orders
      .ok ({ payments := payments, orders := orders },
           { success := true, status := some payment_status,
             message := "Payment processed successfully" })

/-! ## Reviews (`reviews.py`) -/

/-- A `reviews` document.  `id` is the store-generated `_id`, modelled as a
counter value so that store-level uniqueness is expressible. -/
structure Review where
  id : ℕ
  menu_item_id : String
  user_id : String
  rating : ℤ
  comment : Option String
deriving DecidableEq, Repr

/-- The collections touched by `reviews.py`, plus the store's id counter. -/
structure ReviewDb where
  reviews : List Review
  menu_items : List MenuItem
  nextId : ℕ
deriving DecidableEq, Repr

/-- `POST /reviews/` (`create_review`): 404 if the item is gone, 400 on a
duplicate (user, item) pair, insert, then recompute `avg_rating` and
`review_count` as a full re-scan over the item's reviews. -/
def create_review (db : ReviewDb) (current_user : String)
    (menu_item_id : String) (rating : ℤ) (comment : Option String) :
    Except HTTPError ReviewDb :=
  match db.menu_items.find? (fun m => m.id == menu_item_id) with
  | none => .error (.notFound "Menu item not found")
  | some _ =>
    match db.reviews.find?
        (fun r => r.user_id == current_user && r.menu_item_id == menu_item_id) with
    | some _ => .error (.badRequest "You have already reviewed this item")
    | none =>
      let reviews : List Review := db.reviews ++ [{
        id := db.nextId
        menu_item_id := menu_item_id
        user_id := current_user
        rating := rating
        comment := comment }]
      let all_reviews := reviews.filter (fun r => r.menu_item_id == menu_item_id)
      let total_rating : ℤ := (all_reviews.map (fun r => r.rating)).sum
      let avg_rating : ℚ :=
        if all_reviews.length = 0 then 0
        else (total_rating : ℚ) / (all_reviews.length : ℚ)
      let menu_items :=
        updateFirst (fun m => m.id == menu_item_id)
          (fun m => { m with
            avg_rating := avg_rating
            review_count := all_reviews.length }) db.menu_items
      .ok { db with
            reviews := reviews
            menu_items := menu_items
            nextId := db.nextId + 1 }

/-- `PUT /reviews/{review_id}` (`update_review`): the payload's unset fields
are excluded; with an empty payload nothing is written; when `rating` is
among the updated fields, `avg_rating` (and only it — not `review_count`)
is recomputed for the review's item by a full re-scan. -/
def update_review (db : ReviewDb) (current_user : String) (review_id : ℕ)
    (rating : Option ℤ) (comment : Option (Option String)) :
    Except HTTPError ReviewDb :=
  match db.reviews.find?
      (fun r => r.id == review_id && r.user_id == current_user) with
  | none => .error (.notFound "Review not found")
  | some review =>
    if rating.isNone && comment.isNone then
      .ok db
    else
      let reviews :=
        updateFirst (fun r => r.id == review_id)
          (fun r => { r with
            rating := rating.getD r.rating
            comment := comment.getD r.comment }) db.reviews
      match rating with
      | none => .ok { db with reviews := reviews }
      | some _ =>
        let menu_item_id := review.menu_item_id
        let all_reviews := reviews.filter (fun r => r.menu_item_id == menu_item_id)
        let total_rating : ℤ := (all_reviews.map (fun r => r.rating)).sum
        let avg_rating : ℚ :=
          if all_reviews.length = 0 then 0
          else (total_rating : ℚ) / (all_reviews.length : ℚ)
        let menu_items :=
          updateFirst (fun m => m.id == menu_item_id)
            (fun m => { m with avg_rating := avg_rating }) db.menu_items
        .ok { db with reviews := reviews, menu_items := menu_items }

/-- `DELETE /reviews/{review_id}` (`delete_review`): owners (or admins, with
no ownership filter) delete; the item's aggregates are recomputed over the
remaining reviews, or reset to `0`/`0` when none remain. -/
def delete_review (db : ReviewDb) (current_user : String) (is_admin : Bool)
    (review_id : ℕ) : Except HTTPError ReviewDb :=
  match (if is_admin then
           db.reviews.find? (fun r => r.id == review_id)
         else
           db.reviews.find?
             (fun r => r.id == review_id && r.user_id == current_user)) with
  | none => .error (.notFound "Review not found")
  | some review =>
    let menu_item_id := review.menu_item_id
    let reviews := removeFirst (fun r => r.id == review_id) db.reviews
    let all_reviews := reviews.filter (fun r => r.menu_item_id == menu_item_id)
    let menu_items :=
      if all_reviews.length ≠ 0 then
        let total_rating : ℤ := (all_reviews.map (fun r => r.rating)).sum
        let avg_rating : ℚ := (total_rating : ℚ) / (all_reviews.length : ℚ)
        updateFirst (fun m => m.id == menu_item_id)
          (fun m => { m with
            avg_rating := avg_rating
            review_count := all_reviews.length }) db.menu_items
      else
        updateFirst (fun m => m.id == menu_item_id)
          (fun m => { m with avg_rating := 0, review_count := 0 }) db.menu_items
    .ok { db with reviews := reviews, menu_items := menu_items }

/-- One client-visible review operation, for reasoning about sequences. -/
inductive ReviewOp where
  | create (current_user menu_item_id : String) (rating : ℤ)
      (comment : Option String)
  | update (current_user : String) (review_id : ℕ) (rating : Option ℤ)
      (comment : Option (Option String))
  | delete (current_user : String) (is_admin : Bool) (review_id : ℕ)
deriving DecidableEq, Repr

/-- Apply one review operation; a request that ends in an HTTP error leaves
the store unchanged (every write in these handlers happens after the last
possible raise). -/
def applyReviewOp (db : ReviewDb) : ReviewOp → ReviewDb
  | .create u m r c => (create_review db u m r c).toOption.getD db
  | .update u i r c => (update_review db u i r c).toOption.getD db
  | .delete u a i => (delete_review db u a i).toOption.getD db

/-! ## Addresses (`addresses.py`) -/

/-- An `addresses` document (`is_default` plus representative payload
fields). -/
structure Address where
  id : String
  user_id : String
  address_line1 : String
  city : String
  is_default : Bool
deriving DecidableEq, Repr

/-- `AddressUpdate` with `exclude_unset=True`: only the provided fields are
written. -/
structure AddressUpdate where
  address_line1 : Option String
  city : Option String
  is_default : Option Bool
deriving DecidableEq, Repr

/-- `POST /addresses/` (`create_address`): the user's first address is
forced default; a default insert first unsets every other default of that
user.  `newId` is the store-generated `_id`. -/
def create_address (addresses : List Address) (current_user : String)
    (address_line1 city : String) (is_default : Bool) (newId : String) :
    List Address :=
  let address_count :=
    (addresses.filter (fun a => a.user_id == current_user)).length
  let is_default := if address_count = 0 then true else is_default
  let addresses :=
    if is_default then
      addresses.map (fun a =>
        if a.user_id == current_user then { a with is_default := false } else a)
    else addresses
  addresses ++ [{
    id := newId
    user_id := current_user
    address_line1 := address_line1
    city := city
    is_default := is_default }]

/-- `PUT /addresses/{address_id}` (`update_address`): 404 when absent or
foreign; a truthy `is_default` in the payload unsets the user's other
defaults; then the provided fields are `$set` on the target. -/
def update_address (addresses : List Address) (current_user address_id : String)
    (upd : AddressUpdate) : Except HTTPError (List Address) :=
  match addresses.find?
      (fun a => a.id == address_id && a.user_id == current_user) with
  | none => .error (.notFound "Address not found")
  | some _ =>
    if upd.address_line1.isNone && upd.city.isNone && upd.is_default.isNone then
      .ok addresses
    else
      let addresses :=
        if upd.is_default = some true then
          addresses.map (fun a =>
            if a.user_id == current_user && !(a.id == address_id) then
              { a with is_default := false }
            else a)
        else addresses
      .ok (updateFirst (fun a => a.id == address_id)
        (fun a => { a with
          address_line1 := upd.address_line1.getD a.address_line1
          city := upd.city.getD a.city
          is_default := upd.is_default.getD a.is_default }) addresses)

/-- `DELETE /addresses/{address_id}` (`delete_address`): 404 when absent or
foreign; deleting the default first promotes some other address of the user
(if any) to default. -/
def delete_address (addresses : List Address) (current_user address_id : String) :
    Except HTTPError (List Address) :=
  match addresses.find?
      (fun a => a.id == address_id && a.user_id == current_user) with
  | none => .error (.notFound "Address not found")
  | some address =>
    let addresses :=
      if address.is_default then
        match addresses.find?
            (fun a => a.user_id == current_user && !(a.id == address_id)) with
        | some other_address =>
          updateFirst (fun a => a.id == other_address.id)
            (fun a => { a with is_default := true }) addresses
        | none => addresses
      else addresses
    .ok (removeFirst (fun a => a.id == address_id) addresses)

/-! ## Delivery (`delivery.py`) -/

/-- A `deliveries` document; `status_history` maps a status name to the
timestamp of its latest occurrence. -/
structure Delivery where
  order_id : String
  user_id : String
  status : String
  message : String
  driver_id : Option String
  driver_name : Option String
  driver_phone : Option String
  status_history : List (String × ℕ)
deriving DecidableEq, Repr

/-- Upsert of the dotted key `status_history.{status}`. -/
def histSet (h : List (String × ℕ)) (k : String) (v : ℕ) : List (String × ℕ) :=
  if h.any (fun p => p.1 == k) then
    h.map (fun p => if p.1 == k then (k, v) else p)
  else h ++ [(k, v)]

/-- The collections touched by `delivery.py`. -/
structure DeliveryEnv where
  orders : List OrderDoc
  deliveries : List Delivery
deriving DecidableEq, Repr

/-- Outcome of a call into `update_delivery_status`: a normal return, a
clean `HTTPException`, or an uncaught Python `AttributeError`. -/
inductive DeliveryResult where
  | ok (env : DeliveryEnv) (d : Option Delivery)
  | httpError (code : ℕ) (detail : String)
  | attributeError (attr : String)
deriving DecidableEq, Repr

/-- Attribute lookup on a Python `str` value for the names this module asks
of its (shadowed) `status` binding: a `str` carries no `HTTP_*` constants,
so every such lookup raises `AttributeError`. -/
def strGetAttr (_s _attr : String) : Option ℕ := none

/-- The helper `update_delivery_status(order_id, status, message)` of
`delivery.py`.  Its `status` parameter (a plain string) shadows the
`fastapi status` module, so on the order-lookup failure paths the argument
expression `status.HTTP_404_NOT_FOUND` of the intended 404 raise is an
attribute access on that string.  `validId` models `ObjectId(order_id)`
parsing, `now` the `datetime.utcnow()` timestamp. -/
def update_delivery_status (validId : String → Bool) (env : DeliveryEnv)
    (order_id status message : String) (now : ℕ) : DeliveryResult :=
  let raise404 : DeliveryResult :=
    match strGetAttr status "HTTP_404_NOT_FOUND" with
    | none => .attributeError "HTTP_404_NOT_FOUND"
    | some code => .httpError code "Order not found"
  if validId order_id = false then
    raise404
  else
    match env.orders.find? (fun o => o.id == order_id) with
    | none => raise404
    | some order =>
      let deliveries :=
        match env.deliveries.find? (fun d => d.order_id == order_id) with
        | some _ =>
          updateFirst (fun d => d.order_id == order_id)
            (fun d => { d with
              status := status
              message := message
              status_history := histSet d.status_history status now })
            env.deliveries
        | none =>
          env.deliveries ++ [{
            order_id := order_id
            user_id := order.user_id
            status := status
            message := message
            driver_id := none
            driver_name := none
            driver_phone := none
            status_history := [(status, now)] }]
      let orders :=
        updateFirst (fun o => o.id == order_id)
          (fun o => { o with delivery_status := some status }) env.orders
      .ok { orders := orders, deliveries := deliveries }
        (deliveries.find? (fun d => d.order_id == order_id))

/-! ## Derived notions used by the statements -/

/-- The multiset of ratings currently on file for one menu item. -/
def ratingsFor (rs : List Review) (m : String) : List ℤ :=
  (rs.filter (fun r => r.menu_item_id == m)).map (fun r => r.rating)

/-- Arithmetic mean of a rating list, 0 when empty. -/
def ratingAvg (l : List ℤ) : ℚ :=
  if l.length = 0 then 0 else (l.sum : ℚ) / (l.length : ℚ)

/-- The C5 invariant: stored aggregates of every menu item agree with a full
re-scan of its reviews, review ids are store-unique and below the counter. -/
def ratingAggInv (db : ReviewDb) : Prop :=
  (db.menu_items.map (fun m => m.id)).Nodup ∧
  (db.reviews.map (fun r => r.id)).Nodup ∧
  (∀ r ∈ db.reviews, r.id < db.nextId) ∧
  ∀ m ∈ db.menu_items,
    m.review_count = (ratingsFor db.reviews m.id).length ∧
    m.avg_rating = ratingAvg (ratingsFor db.reviews m.id)

/-- How many of a user's addresses are flagged default. -/
def defaultCount (addresses : List Address) (u : String) : ℕ :=
  (addresses.filter (fun a => a.user_id == u && a.is_default)).length

/-- One client-visible address operation. -/
inductive AddressOp where
  | create (current_user address_line1 city : String) (is_default : Bool)
      (newId : String)
  | update (current_user address_id : String) (upd : AddressUpdate)
  | delete (current_user address_id : String)
deriving DecidableEq, Repr

/-- Apply one address operation; a request that ends in an HTTP error leaves
the store unchanged. -/
def applyAddressOp (addresses : List Address) : AddressOp → List Address
  | .create u l c d i => create_address addresses u l c d i
  | .update u a upd => (update_address addresses u a upd).toOption.getD addresses
  | .delete u a => (delete_address addresses u a).toOption.getD addresses

/-! ## Concrete sample data (for witnesses and counterexamples) -/

/-- Catalog with two available items. -/
def menuA : MenuItem :=
  { id := "m1", name := "Jollof Rice", price := 10, is_available := true
    images := [{ url := some "https://img/jollof" }]
    avg_rating := 0, review_count := 0 }

def menuB : MenuItem :=
  { id := "m2", name := "Suya", price := 5, is_available := true
    images := [], avg_rating := 0, review_count := 0 }

def sampleMenu : List MenuItem := [menuA, menuB]

/-- A cart of user u1 holding 2 × m1 and 1 × m2 at the catalog prices
(the spec's example scenario: total 25). -/
def cartC1 : Cart :=
  { id := "c1", user_id := "u1"
    items := [
      { id := "l1", menu_item_id := "m1", name := "Jollof Rice", price := 10
        quantity := 2, subtotal := 20, image_url := some "https://img/jollof" },
      { id := "l2", menu_item_id := "m2", name := "Suya", price := 5
        quantity := 1, subtotal := 5, image_url := none }]
    total := 25 }

def addrC1 : AddressRef := { id := "a1", user_id := "u1" }

/-- Environment for the order-creation runs. -/
def envC1 : OrderEnv :=
  { menu_items := sampleMenu, carts := [cartC1], addresses := [addrC1]
    orders := [] }

def freshW : ℕ → String := fun k => "oi" ++ toString k

/-- A placeholder used only to extract values out of `Except`/`Option`. -/
def dummyOrder : OrderDoc :=
  { id := "", user_id := "", items := [], delivery_address_id := ""
    special_instructions := none, subtotal := 0, delivery_fee := 0, tax := 0
    total_amount := 0, status := "", payment_status := ""
    payment_reference := none, delivery_status := none }

def dummyEnv : OrderEnv :=
  { menu_items := [], carts := [], addresses := [], orders := [] }

def c1Res : Except HTTPError (OrderEnv × OrderDoc) :=
  create_order envC1 "u1" "c1" "a1" none "o1" freshW

def c1Env2W : OrderEnv := (c1Res.toOption.map Prod.fst).getD dummyEnv

def c1OrderW : OrderDoc := (c1Res.toOption.map Prod.snd).getD dummyOrder

/-- Catalog whose price for m1 has drifted to 30 since the cart was filled. -/
def driftedMenu : List MenuItem := [{ menuA with price := 30 }, menuB]

/-- A cart caching the old price 10 (line subtotal 20). -/
def cartC8 : Cart :=
  { id := "c1", user_id := "u1"
    items := [{ id := "l1", menu_item_id := "m1", name := "Jollof Rice"
                price := 10, quantity := 2, subtotal := 20
                image_url := some "https://img/jollof" }]
    total := 20 }

def c8Env : OrderEnv :=
  { menu_items := driftedMenu, carts := [cartC8], addresses := [addrC1]
    orders := [] }

def c8Res : Except HTTPError (OrderEnv × OrderDoc) :=
  create_order c8Env "u1" "c1" "a1" none "o1" freshW

def c8Env2W : OrderEnv := (c8Res.toOption.map Prod.fst).getD dummyEnv

def c8OrderW : OrderDoc := (c8Res.toOption.map Prod.snd).getD dummyOrder

/-- A dummy cart for `Option.getD` extraction. -/
def dummyCart : Cart := { id := "", user_id := "", items := [], total := 0 }

def c2Add : Cart :=
  (add_item_to_cart sampleMenu cartC1 "m2" 3 "l9").toOption.getD dummyCart

def c2Upd : Cart := (update_cart_item cartC1 "l1" 5).toOption.getD dummyCart

def c2Rem : Cart := (remove_cart_item cartC1 "l1").toOption.getD dummyCart

/-- Carts store with a stale stored total (99) whose line subtotals sum
to 25. -/
def dbC10 : CartsDb := { carts := [{ cartC1 with total := 99 }], nextId := 7 }

/-- A pending order of u1, payment reference attached. -/
def ordC4 : OrderDoc :=
  { dummyOrder with
    id := "o1", user_id := "u1", subtotal := 25, delivery_fee := 5
    tax := 15 / 8, total_amount := 255 / 8
    status := "PENDING", payment_status := "PENDING"
    payment_reference := some "ref1" }

def payW : Payment :=
  { order_id := "o1", user_id := "u1", amount := 255 / 8, reference := "ref1"
    provider := "PAYSTACK", status := "PENDING", transaction_data := none }

def dbPayW : PayDb := { payments := [payW], orders := [ordC4] }

def respW : GatewayVerifyResponse :=
  { http_status := 200, status := true, message := "Verification successful"
    data := { status := "success", raw := "gateway payload" } }

/-- Review store for the C5 witness: one item, clean aggregates. -/
def dbReviewW : ReviewDb :=
  { reviews := [], menu_items := [menuA, menuB], nextId := 0 }

def opsReviewW : List ReviewOp :=
  [ .create "u1" "m1" 5 none,
    .create "u2" "m1" 4 (some "tasty"),
    .update "u2" 1 (some 3) none,
    .delete "u1" false 0 ]

/-- Two addresses of u1, the first one default. -/
def addrA : Address :=
  { id := "a1", user_id := "u1", address_line1 := "1 Allen Avenue"
    city := "Lagos", is_default := true }

def addrB : Address :=
  { id := "a2", user_id := "u1", address_line1 := "2 Broad Street"
    city := "Abuja", is_default := false }

def addrsW : List Address := [addrA, addrB]

/-- The payload `{"is_default": false}`. -/
def unsetDefaultUpd : AddressUpdate :=
  { address_line1 := none, city := none, is_default := some false }

def addrsAfterUnset : List Address :=
  (update_address addrsW "u1" "a1" unsetDefaultUpd).toOption.getD []

/-- Delivery store for the C9 witness (no order "o9" exists). -/
def envC9 : DeliveryEnv := { orders := [ordC4], deliveries := [] }

/-! ## Generic lemmas about the store operations -/

theorem updateFirst_length {α : Type} (p : α → Bool) (f : α → α) :
    ∀ xs : List α, (updateFirst p f xs).length = xs.length := by
  intro xs
  induction xs with
  | nil => rfl
  | cons x xs ih =>
    by_cases h : p x = true
    · simp [updateFirst, h]
    · simp [updateFirst, h, ih]

theorem updateFirst_eq_of_find?_none {α : Type} {p : α → Bool} (f : α → α)
    {xs : List α} (h : xs.find? p = none) : updateFirst p f xs = xs := by
  induction xs with
  | nil => rfl
  | cons x xs ih =>
    by_cases hx : p x = true
    · rw [List.find?_cons_of_pos _ hx] at h
      exact absurd h (by simp)
    · simp only [Bool.not_eq_true] at hx
      rw [List.find?_cons_of_neg _ (by simp [hx])] at h
      simp [updateFirst, hx, ih h]

theorem updateFirst_map_key {α κ : Type} (key : α → κ) {p : α → Bool}
    {f : α → α} (hf : ∀ x, key (f x) = key x) :
    ∀ xs : List α, (updateFirst p f xs).map key = xs.map key := by
  intro xs
  induction xs with
  | nil => rfl
  | cons x xs ih =>
    by_cases h : p x = true
    · simp [updateFirst, h, hf]
    · simp [updateFirst, h, ih]

theorem updateFirst_idem {α : Type} {p : α → Bool} {f : α → α}
    (hp : ∀ x, p (f x) = p x) (hf : ∀ x, f (f x) = f x) :
    ∀ xs : List α, updateFirst p f (updateFirst p f xs) = updateFirst p f xs := by
  intro xs
  induction xs with
  | nil => rfl
  | cons x xs ih =>
    by_cases h : p x = true
    · simp [updateFirst, h, hp, hf]
    · simp [updateFirst, h, ih]

theorem find?_isSome_updateFirst {α : Type} {p q : α → Bool} {f : α → α}
    (hq : ∀ x, q (f x) = q x) :
    ∀ xs : List α, ((updateFirst p f xs).find? q).isSome = (xs.find? q).isSome := by
  intro xs
  induction xs with
  | nil => rfl
  | cons x xs ih =>
    by_cases h : p x = true
    · by_cases hx : q x = true
      · simp [updateFirst, h, List.find?_cons, hq, hx]
      · simp only [Bool.not_eq_true] at hx
        simp [updateFirst, h, List.find?_cons, hq, hx]
    · by_cases hx : q x = true
      · simp [updateFirst, h, List.find?_cons, hx]
      · simp only [Bool.not_eq_true] at hx
        simp [updateFirst, h, List.find?_cons, hx, ih]

theorem updateFirst_find?_same {α : Type} {p : α → Bool} {f : α → α}
    {xs : List α} {x : α} (hfind : xs.find? p = some x)
    (hp : ∀ y, p (f y) = p y) :
    (updateFirst p f xs).find? p = some (f x) := by
  induction xs with
  | nil => simp [List.find?] at hfind
  | cons a xs ih =>
    rw [List.find?_cons] at hfind
    by_cases h : p a = true
    · simp [h] at hfind
      subst hfind
      simp [updateFirst, h, List.find?_cons, hp]
    · simp only [Bool.not_eq_true] at h
      simp [h] at hfind
      simp [updateFirst, h, List.find?_cons, ih hfind]

theorem mem_updateFirst {α : Type} {p : α → Bool} {f : α → α}
    {xs : List α} {y : α} (hy : y ∈ updateFirst p f xs) :
    y ∈ xs ∨ ∃ x, x ∈ xs ∧ p x = true ∧ y = f x := by
  induction xs with
  | nil => simp [updateFirst] at hy
  | cons a xs ih =>
    by_cases h : p a = true
    · simp [updateFirst, h] at hy
      rcases hy with hy | hy
      · exact Or.inr ⟨a, List.mem_cons_self a xs, h, hy⟩
      · exact Or.inl (List.mem_cons_of_mem a hy)
    · simp [updateFirst, h] at hy
      rcases hy with hy | hy
      · exact Or.inl (hy ▸ List.mem_cons_self a xs)
      · rcases ih hy with h1 | ⟨x, hx, hpx, hfx⟩
        · exact Or.inl (List.mem_cons_of_mem a h1)
        · exact Or.inr ⟨x, List.mem_cons_of_mem a hx, hpx, hfx⟩

theorem mem_updateFirst_nodup_key {α κ : Type} [DecidableEq κ]
    (key : α → κ) (k : κ) (f : α → α) :
    ∀ xs : List α, (xs.map key).Nodup →
      ∀ y ∈ updateFirst (fun x => key x == k) f xs,
        (∃ x, x ∈ xs ∧ key x = k ∧ y = f x) ∨ (y ∈ xs ∧ key y ≠ k) := by
  intro xs
  induction xs with
  | nil => intro _ y hy; simp [updateFirst] at hy
  | cons a xs ih =>
    intro hnd y hy
    rw [List.map_cons, List.nodup_cons] at hnd
    obtain ⟨hka, hnd⟩ := hnd
    by_cases h : key a = k
    · simp only [updateFirst, h, beq_self_eq_true, if_true] at hy
      rcases List.mem_cons.mp hy with hy | hy
      · exact Or.inl ⟨a, List.mem_cons_self a xs, h, hy⟩
      · refine Or.inr ⟨List.mem_cons_of_mem a hy, ?_⟩
        intro hyk
        exact hka (by rw [h, ← hyk]; exact List.mem_map_of_mem key hy)
    · have hb : (key a == k) = false := beq_eq_false_iff_ne.mpr h
      simp only [updateFirst, hb, Bool.false_eq_true, if_false] at hy
      rcases List.mem_cons.mp hy with hy | hy
      · exact Or.inr ⟨hy ▸ List.mem_cons_self a xs, hy ▸ h⟩
      · rcases ih hnd y hy with ⟨x, hx, hk, hfx⟩ | ⟨h1, h2⟩
        · exact Or.inl ⟨x, List.mem_cons_of_mem a hx, hk, hfx⟩
        · exact Or.inr ⟨List.mem_cons_of_mem a h1, h2⟩

theorem removeFirst_sublist {α : Type} (p : α → Bool) :
    ∀ xs : List α, (removeFirst p xs).Sublist xs := by
  intro xs
  induction xs with
  | nil => exact List.Sublist.refl _
  | cons a xs ih =>
    by_cases h : p a = true
    · simp only [removeFirst, h, if_true]
      exact List.sublist_cons_self a xs
    · simpa [removeFirst, h] using List.Sublist.cons₂ a ih

theorem mem_removeFirst {α : Type} {p : α → Bool} {xs : List α} {y : α}
    (hy : y ∈ removeFirst p xs) : y ∈ xs :=
  (removeFirst_sublist p xs).mem hy

theorem find?_key_eq_of_mem_nodup {α κ : Type} [DecidableEq κ]
    (key : α → κ) (k : κ) :
    ∀ xs : List α, (xs.map key).Nodup →
      ∀ x, x ∈ xs → key x = k → xs.find? (fun y => key y == k) = some x := by
  intro xs
  induction xs with
  | nil => intro _ x hx; simp at hx
  | cons a xs ih =>
    intro hnd x hx hk
    rw [List.map_cons, List.nodup_cons] at hnd
    obtain ⟨hka, hnd⟩ := hnd
    rcases List.mem_cons.mp hx with hx | hx
    · subst hx
      simp [List.find?_cons, hk]
    · have hak : key a ≠ k := by
        intro h
        exact hka (by rw [h, ← hk]; exact List.mem_map_of_mem key hx)
      have hb : (key a == k) = false := beq_eq_false_iff_ne.mpr hak
      rw [List.find?_cons, hb]
      exact ih hnd x hx hk

theorem nodup_key_mem_eq {α κ : Type} (key : α → κ) :
    ∀ xs : List α, (xs.map key).Nodup →
      ∀ x y, x ∈ xs → y ∈ xs → key x = key y → x = y := by
  intro xs
  induction xs with
  | nil => intro _ x y hx; simp at hx
  | cons a xs ih =>
    intro hnd x y hx hy hk
    rw [List.map_cons, List.nodup_cons] at hnd
    obtain ⟨hka, hnd⟩ := hnd
    rcases List.mem_cons.mp hx with hx | hx <;> rcases List.mem_cons.mp hy with hy | hy
    · rw [hx, hy]
    · exact absurd (by rw [← hx, hk]; exact List.mem_map_of_mem key hy) hka
    · exact absurd (by rw [← hy, ← hk]; exact List.mem_map_of_mem key hx) hka
    · exact ih hnd x y hx hy hk

theorem not_mem_removeFirst_of_nodup {α κ : Type} [DecidableEq κ]
    (key : α → κ) (k : κ) :
    ∀ xs : List α, (xs.map key).Nodup →
      ∀ x, x ∈ xs → key x = k → x ∉ removeFirst (fun y => key y == k) xs := by
  intro xs
  induction xs with
  | nil => intro _ x hx; simp at hx
  | cons a xs ih =>
    intro hnd x hx hk
    rw [List.map_cons, List.nodup_cons] at hnd
    obtain ⟨hka, hnd⟩ := hnd
    by_cases h : key a = k
    · have hx2 : x = a := by
        rcases List.mem_cons.mp hx with hx | hx
        · exact hx
        · exact absurd (by rw [h, ← hk]; exact List.mem_map_of_mem key hx) hka
      subst hx2
      simp only [removeFirst, h, beq_self_eq_true, if_true]
      intro hmem
      exact hka (hk ▸ h ▸ List.mem_map_of_mem key hmem)
    · have hb : (key a == k) = false := beq_eq_false_iff_ne.mpr h
      simp only [removeFirst, hb, Bool.false_eq_true, if_false]
      have hx2 : x ∈ xs := by
        rcases List.mem_cons.mp hx with hx | hx
        · exact absurd (hx ▸ hk) h
        · exact hx
      intro hmem
      rcases List.mem_cons.mp hmem with hmem | hmem
      · exact h (hmem ▸ hk)
      · exact ih hnd x hx2 hk hmem

/-- Counting under `update_one` on a unique key: the target element `x0` is
swapped for `f x0`, everything else keeps its `q`-status. -/
theorem updateFirst_filter_length_key {α κ : Type} [DecidableEq κ]
    (key : α → κ) (k : κ) (f : α → α) (q : α → Bool) :
    ∀ xs : List α, (xs.map key).Nodup →
      ∀ x0, x0 ∈ xs → key x0 = k →
        ((updateFirst (fun y => key y == k) f xs).filter q).length
            + (if q x0 = true then 1 else 0)
          = (xs.filter q).length + (if q (f x0) = true then 1 else 0) := by
  intro xs
  induction xs with
  | nil => intro _ x0 hx0; simp at hx0
  | cons a xs ih =>
    intro hnd x0 hx0 hk
    rw [List.map_cons, List.nodup_cons] at hnd
    obtain ⟨hka, hnd⟩ := hnd
    by_cases h : key a = k
    · have hx2 : x0 = a := by
        rcases List.mem_cons.mp hx0 with hx | hx
        · exact hx
        · exact absurd (by rw [h, ← hk]; exact List.mem_map_of_mem key hx) hka
      subst hx2
      simp only [updateFirst, h, beq_self_eq_true, if_true, List.filter_cons]
      by_cases hq : q x0 = true <;> by_cases hqf : q (f x0) = true <;>
        simp [hq, hqf]
    · have hb : (key a == k) = false := beq_eq_false_iff_ne.mpr h
      have hx2 : x0 ∈ xs := by
        rcases List.mem_cons.mp hx0 with hx | hx
        · exact absurd (hx ▸ hk) h
        · exact hx
      simp only [updateFirst, hb, Bool.false_eq_true, if_false, List.filter_cons]
      by_cases hq : q a = true
      · simp only [hq, if_true, List.length_cons]
        have := ih hnd x0 hx2 hk
        omega
      · simp only [hq, if_false]
        exact ih hnd x0 hx2 hk

/-- Counting under `delete_one` on a unique key: exactly the target element
`x0` disappears. -/
theorem removeFirst_filter_length_key {α κ : Type} [DecidableEq κ]
    (key : α → κ) (k : κ) (q : α → Bool) :
    ∀ xs : List α, (xs.map key).Nodup →
      ∀ x0, x0 ∈ xs → key x0 = k →
        ((removeFirst (fun y => key y == k) xs).filter q).length
            + (if q x0 = true then 1 else 0)
          = (xs.filter q).length := by
  intro xs
  induction xs with
  | nil => intro _ x0 hx0; simp at hx0
  | cons a xs ih =>
    intro hnd x0 hx0 hk
    rw [List.map_cons, List.nodup_cons] at hnd
    obtain ⟨hka, hnd⟩ := hnd
    by_cases h : key a = k
    · have hx2 : x0 = a := by
        rcases List.mem_cons.mp hx0 with hx | hx
        · exact hx
        · exact absurd (by rw [h, ← hk]; exact List.mem_map_of_mem key hx) hka
      subst hx2
      simp only [removeFirst, h, beq_self_eq_true, if_true, List.filter_cons]
      by_cases hq : q x0 = true <;> simp [hq]
    · have hb : (key a == k) = false := beq_eq_false_iff_ne.mpr h
      have hx2 : x0 ∈ xs := by
        rcases List.mem_cons.mp hx0 with hx | hx
        · exact absurd (hx ▸ hk) h
        · exact hx
      simp only [removeFirst, hb, Bool.false_eq_true, if_false, List.filter_cons]
      by_cases hq : q a = true
      · simp only [hq, if_true, List.length_cons]
        have := ih hnd x0 hx2 hk
        omega
      · simp only [hq, if_false]
        exact ih hnd x0 hx2 hk

/-- Counting under `updateFirst` when the update cannot change the
`q`-status of any element it may touch. -/
theorem filter_length_updateFirst_of_p {α : Type} {p q : α → Bool}
    {f : α → α} :
    ∀ xs : List α, (∀ x ∈ xs, p x = true → q (f x) = q x) →
      ((updateFirst p f xs).filter q).length = (xs.filter q).length := by
  intro xs
  induction xs with
  | nil => intro _; rfl
  | cons a xs ih =>
    intro hpres
    by_cases h : p a = true
    · have hq := hpres a (List.mem_cons_self a xs) h
      simp only [updateFirst, h, if_true, List.filter_cons, hq]
      by_cases hqa : q a = true <;> simp [hqa]
    · simp only [updateFirst, h, if_false, List.filter_cons]
      have := ih (fun x hx => hpres x (List.mem_cons_of_mem a hx))
      by_cases hqa : q a = true <;> simp [hqa, this]

/-! ### Re-scan lemmas for review aggregates -/

theorem ratingsFor_append_ne {rs : List Review} {r : Review} {m : String}
    (h : r.menu_item_id ≠ m) : ratingsFor (rs ++ [r]) m = ratingsFor rs m := by
  have hb : (r.menu_item_id == m) = false := beq_eq_false_iff_ne.mpr h
  simp [ratingsFor, List.filter_append, hb]

theorem ratingsFor_updateFirst_preserve {p : Review → Bool}
    {f : Review → Review}
    (hmid : ∀ x, (f x).menu_item_id = x.menu_item_id)
    (hrat : ∀ x, (f x).rating = x.rating) :
    ∀ (rs : List Review) (m : String),
      ratingsFor (updateFirst p f rs) m = ratingsFor rs m := by
  intro rs m
  induction rs with
  | nil => rfl
  | cons a rs ih =>
    by_cases h : p a = true
    · simp only [updateFirst, h, if_true, ratingsFor, List.filter_cons, hmid]
      by_cases hm : (a.menu_item_id == m) = true <;> simp [hm, hrat]
    · simp only [updateFirst, h, if_false, ratingsFor, List.filter_cons]
      by_cases hm : (a.menu_item_id == m) = true <;>
        simp [hm, ratingsFor] at ih ⊢ <;> exact ih

theorem length_ratingsFor_updateFirst {p : Review → Bool}
    {f : Review → Review}
    (hmid : ∀ x, (f x).menu_item_id = x.menu_item_id) :
    ∀ (rs : List Review) (m : String),
      (ratingsFor (updateFirst p f rs) m).length = (ratingsFor rs m).length := by
  intro rs m
  induction rs with
  | nil => rfl
  | cons a rs ih =>
    by_cases h : p a = true
    · simp only [updateFirst, h, if_true, ratingsFor, List.filter_cons, hmid]
      by_cases hm : (a.menu_item_id == m) = true <;> simp [hm, ratingsFor]
    · simp only [updateFirst, h, if_false, ratingsFor, List.filter_cons]
      by_cases hm : (a.menu_item_id == m) = true <;> simp [hm, ratingsFor] at ih ⊢ <;>
        simp [ih]

theorem ratingsFor_updateFirst_of_p {p : Review → Bool} {f : Review → Review}
    (hmid : ∀ x, (f x).menu_item_id = x.menu_item_id) :
    ∀ (rs : List Review) (m : String),
      (∀ x ∈ rs, p x = true → (x.menu_item_id == m) = false) →
      ratingsFor (updateFirst p f rs) m = ratingsFor rs m := by
  intro rs m
  induction rs with
  | nil => intro _; rfl
  | cons a rs ih =>
    intro hp
    by_cases h : p a = true
    · have hm := hp a (List.mem_cons_self a rs) h
      simp only [updateFirst, h, if_true, ratingsFor, List.filter_cons, hmid, hm]
      simp
    · simp only [updateFirst, h, if_false, ratingsFor, List.filter_cons]
      have := ih (fun x hx => hp x (List.mem_cons_of_mem a hx))
      by_cases hm : (a.menu_item_id == m) = true <;>
        simp [hm, ratingsFor] at this ⊢ <;> simp [this]

theorem ratingsFor_removeFirst_of_p {p : Review → Bool} :
    ∀ (rs : List Review) (m : String),
      (∀ x ∈ rs, p x = true → (x.menu_item_id == m) = false) →
      ratingsFor (removeFirst p rs) m = ratingsFor rs m := by
  intro rs m
  induction rs with
  | nil => intro _; rfl
  | cons a rs ih =>
    intro hp
    by_cases h : p a = true
    · have hm := hp a (List.mem_cons_self a rs) h
      simp only [removeFirst, h, if_true, ratingsFor, List.filter_cons, hm]
      simp
    · simp only [removeFirst, h, if_false, ratingsFor, List.filter_cons]
      have := ih (fun x hx => hp x (List.mem_cons_of_mem a hx))
      by_cases hm : (a.menu_item_id == m) = true <;>
        simp [hm, ratingsFor] at this ⊢ <;> simp [this]

/-! ### Counting lemmas for the `update_many` default-unset pattern -/

/-- After `update_many` unsets `is_default` on every address matching `gp`,
no address can pass a check that (on this list) forces `gp`. -/
theorem unset_map_count_zero (gp : Address → Bool) (q : Address → Bool)
    (hq2 : ∀ a : Address, q { a with is_default := false } = false) :
    ∀ as : List Address, (∀ a ∈ as, q a = true → gp a = true) →
      ((as.map (fun a => if gp a then { a with is_default := false } else a)).filter
        q).length = 0 := by
  intro as
  induction as with
  | nil => intro _; rfl
  | cons a as ih =>
    intro hq
    by_cases h : gp a = true
    · rw [List.map_cons, if_pos h, List.filter_cons, if_neg (by simp [hq2])]
      exact ih (fun x hx => hq x (List.mem_cons_of_mem a hx))
    · have hqa : q a ≠ true := by
        intro hqa
        exact absurd (hq a (List.mem_cons_self a as) hqa) (by simp [h])
      rw [List.map_cons, if_neg (by simp [h]), List.filter_cons, if_neg hqa]
      exact ih (fun x hx => hq x (List.mem_cons_of_mem a hx))

/-- `update_many` that only unsets `is_default` on `gp`-matching addresses
does not change the default count of a user none of whose addresses
match `gp`. -/
theorem unset_map_count_other (gp : Address → Bool) (u : String)
    (hgp : ∀ a, a.user_id = u → gp a = false) :
    ∀ as : List Address,
      ((as.map (fun a => if gp a then { a with is_default := false } else a)).filter
          (fun a => a.user_id == u && a.is_default)).length
        = (as.filter (fun a => a.user_id == u && a.is_default)).length := by
  intro as
  induction as with
  | nil => rfl
  | cons a as ih =>
    by_cases h : gp a = true
    · have hu : (a.user_id == u) = false := by
        by_cases hu : a.user_id = u
        · exact absurd (hgp a hu) (by simp [h])
        · exact beq_eq_false_iff_ne.mpr hu
      simp only [List.map_cons, h, if_true, List.filter_cons, hu,
        Bool.false_and, Bool.false_eq_true, if_false]
      exact ih
    · simp only [List.map_cons, h, if_false, List.filter_cons]
      by_cases hq : (a.user_id == u && a.is_default) = true <;>
        simp only [hq, if_true, if_false, List.length_cons, Bool.false_eq_true] <;>
        simp [ih]

/-- The default count of user `u0` after the `update_address` unset pass
(`update_many` on `user_id == u0 ∧ _id ≠ aid`): only the `aid` address can
remain default, and it keeps its previous flag. -/
theorem unset_map_count_self_except (u0 aid : String) :
    ∀ as : List Address, (as.map (fun a => a.id)).Nodup →
      ∀ a0, a0 ∈ as → a0.id = aid → a0.user_id = u0 →
      ((as.map (fun a =>
            if a.user_id == u0 && !(a.id == aid) then { a with is_default := false }
            else a)).filter
          (fun a => a.user_id == u0 && a.is_default)).length
        = if a0.is_default then 1 else 0 := by
  intro as
  induction as with
  | nil => intro _ a0 ha0; simp at ha0
  | cons a as ih =>
    intro hnd a0 ha0 hid huser
    rw [List.map_cons, List.nodup_cons] at hnd
    obtain ⟨hka, hnd⟩ := hnd
    by_cases h : a.id = aid
    · have ha2 : a0 = a := by
        rcases List.mem_cons.mp ha0 with hx | hx
        · exact hx
        · exact absurd (by rw [h, ← hid]; exact List.mem_map_of_mem _ hx) hka
      subst ha2
      have hguard : (a0.user_id == u0 && !(a0.id == aid)) = false := by
        simp [hid]
      have htail :
          ((as.map (fun a =>
              if a.user_id == u0 && !(a.id == aid) then { a with is_default := false }
              else a)).filter
            (fun a => a.user_id == u0 && a.is_default)).length = 0 := by
        refine unset_map_count_zero _ _ (by intro a; simp) as ?_
        intro b hb hq
        rw [Bool.and_eq_true] at hq
        refine (Bool.and_eq_true _ _).mpr ⟨hq.1, ?_⟩
        simp only [Bool.not_eq_true']
        refine beq_eq_false_iff_ne.mpr ?_
        intro hbid
        exact hka (by rw [h, ← hbid]; exact List.mem_map_of_mem _ hb)
      simp only [List.map_cons, hguard, Bool.false_eq_true, if_false,
        List.filter_cons]
      have hpred : (a0.user_id == u0 && a0.is_default) = (a0.is_default) := by
        simp [huser]
      rw [hpred]
      by_cases hd : a0.is_default = true
      · rw [if_pos hd, if_pos hd, List.length_cons, htail]
      · rw [if_neg hd, if_neg hd, htail]
    · have ha0mem : a0 ∈ as := by
        rcases List.mem_cons.mp ha0 with hx | hx
        · exact absurd (hx ▸ hid) h
        · exact hx
      have hrest := ih hnd a0 ha0mem hid huser
      by_cases hu : a.user_id = u0
      · have hguard : (a.user_id == u0 && !(a.id == aid)) = true := by
          simp [hu, h]
        simp only [List.map_cons, hguard, if_true, List.filter_cons]
        simp only [Bool.and_false, Bool.false_eq_true, if_false]
        exact hrest
      · have hguard : (a.user_id == u0 && !(a.id == aid)) = false := by
          simp [beq_eq_false_iff_ne.mpr hu]
        have hpred : (a.user_id == u0 && a.is_default) = false := by
          simp [beq_eq_false_iff_ne.mpr hu]
        simp only [List.map_cons, hguard, Bool.false_eq_true, if_false,
          List.filter_cons, hpred]
        exact hrest

/-! ### Shape of the items built by `create_order` -/

/-- What the per-line loop of `create_order` produces on success: one order
item per cart line, each rebuilt from the catalog item currently stored
under the line's `menu_item_id`, and the accumulator equals the sum of the
rebuilt subtotals. -/
theorem buildOrderItems_spec (menu : List MenuItem) (fresh : ℕ → String) :
    ∀ (cs : List CartItem) (k : ℕ) (items : List OrderItem) (sub : ℚ),
      buildOrderItems menu fresh cs k = .ok (items, sub) →
      items.length = cs.length ∧
      sub = (items.map (fun it => it.subtotal)).sum ∧
      ∀ i ci, cs[i]? = some ci →
        ∃ m, menu.find? (fun mm => mm.id == ci.menu_item_id) = some m ∧
          m.is_available = true ∧
          items[i]? = some ({
            id := fresh (k + i)
            menu_item_id := m.id
            name := m.name
            price := m.price
            quantity := ci.quantity
            subtotal := m.price * ci.quantity } : OrderItem) := by
  intro cs
  induction cs with
  | nil =>
    intro k items sub h
    simp only [buildOrderItems] at h
    cases h
    refine ⟨rfl, by simp, ?_⟩
    intro i ci hci
    simp at hci
  | cons c rest ih =>
    intro k items sub h
    simp only [buildOrderItems] at h
    split at h
    · exact absurd h (by simp)
    · rename_i menu_item hm
      split at h
      · exact absurd h (by simp)
      · rename_i hav
        split at h
        · exact absurd h (by simp)
        · rename_i items0 sub0 hrec
          cases h
          obtain ⟨hlen, hsum, hpt⟩ := ih (k + 1) items0 sub0 hrec
          have havT : menu_item.is_available = true := by
            cases hb : menu_item.is_available
            · exact absurd hb hav
            · rfl
          refine ⟨by simp [hlen], ?_, ?_⟩
          · simp only [List.map_cons, List.sum_cons]
            rw [hsum]
          · intro i ci hci
            cases i with
            | zero =>
              simp only [List.getElem?_cons_zero, Option.some.injEq] at hci
              subst hci
              refine ⟨menu_item, hm, havT, ?_⟩
              simp only [List.getElem?_cons_zero, Option.some.injEq]
              have : k + 0 = k := rfl
              rw [this]
            | succ n =>
              simp only [List.getElem?_cons_succ] at hci
              obtain ⟨m, hm2, hav2, hit⟩ := hpt n ci hci
              refine ⟨m, hm2, hav2, ?_⟩
              simp only [List.getElem?_cons_succ]
              have : k + 1 + n = k + (n + 1) := by omega
              rw [this] at hit
              exact hit

/-! ## Claims -/

/-- C2: for every cart, after each of the cart-mutating operations add-item,
update-item and remove-item, the persisted cart total equals the sum of the
subtotals of its current line items; after clear, items is empty and total
is 0. -/
theorem cart_total_eq_sum_subtotals_after_mutations
    (menu : List MenuItem) (cart : Cart)
    (menu_item_id line_id newLineId : String) (q1 q2 : ℤ) :
    (∀ c1, add_item_to_cart menu cart menu_item_id q1 newLineId = .ok c1 →
      c1.total = calcTotal c1.items) ∧
    (∀ c2, update_cart_item cart line_id q2 = .ok c2 →
      c2.total = calcTotal c2.items) ∧
    (∀ c3, remove_cart_item cart line_id = .ok c3 →
      c3.total = calcTotal c3.items) ∧
    (clear_cart cart).items = [] ∧ (clear_cart cart).total = 0 := by
  refine ⟨?_, ?_, ?_, rfl, rfl⟩
  · intro c1 h1
    simp only [add_item_to_cart] at h1
    split at h1
    · exact absurd h1 (by simp)
    · split at h1
      · exact absurd h1 (by simp)
      · cases h1
        rfl
  · intro c2 h2
    simp only [update_cart_item] at h2
    split at h2
    · exact absurd h2 (by simp)
    · cases h2
      rfl
  · intro c3 h3
    simp only [remove_cart_item] at h3
    split at h3
    · exact absurd h3 (by simp)
    · cases h3
      rfl

theorem cart_total_eq_sum_subtotals_witness :
    c2Add.total = calcTotal c2Add.items ∧ c2Upd.total = calcTotal c2Upd.items ∧
    c2Rem.total = calcTotal c2Rem.items ∧
    (clear_cart cartC1).items = [] ∧ (clear_cart cartC1).total = 0 :=
  have h := cart_total_eq_sum_subtotals_after_mutations sampleMenu cartC1
    "m2" "l1" "l9" 3 5
  ⟨h.1 c2Add (by rfl), h.2.1 c2Upd (by rfl), h.2.2.1 c2Rem (by rfl),
   h.2.2.2.1, h.2.2.2.2⟩

/-- C10: the cart read endpoint answers with `total` recomputed as the sum
of the current line subtotals, whatever total is stored, and does not write
the recomputed value back. -/
theorem get_user_cart_recomputes_total_without_persisting
    (db : CartsDb) (user_id : String) (cart : Cart)
    (hfind : db.carts.find? (fun c => c.user_id == user_id) = some cart) :
    get_user_cart db user_id =
      (db, { cart with total := calcTotal cart.items }) := by
  simp only [get_user_cart, hfind]

theorem get_user_cart_witness :
    get_user_cart dbC10 "u1" = (dbC10, { cartC1 with total := 25 }) := by
  have h := get_user_cart_recomputes_total_without_persisting dbC10 "u1"
    { cartC1 with total := 99 } (by rfl)
  rw [h]
  simp [cartC1, calcTotal]
  norm_num

/-- C9: when the order lookup in the delivery-status helper fails (invalid
id or absent order), the intended 404 raise evaluates
`status.HTTP_404_NOT_FOUND` on the helper's string parameter `status`
(which shadows the HTTP status module), so the call ends in an
AttributeError and never in a clean 404 response. -/
theorem update_delivery_status_lookup_failure_raises_attribute_error
    (validId : String → Bool) (env : DeliveryEnv)
    (order_id status message : String) (now : ℕ)
    (h : validId order_id = false ∨
      env.orders.find? (fun o => o.id == order_id) = none) :
    update_delivery_status validId env order_id status message now =
      .attributeError "HTTP_404_NOT_FOUND" ∧
    ∀ code detail,
      update_delivery_status validId env order_id status message now ≠
        .httpError code detail := by
  have heq : update_delivery_status validId env order_id status message now =
      .attributeError "HTTP_404_NOT_FOUND" := by
    simp only [update_delivery_status, strGetAttr]
    rcases h with h | h
    · simp [h]
    · by_cases hv : validId order_id = false
      · simp [hv]
      · simp only [Bool.not_eq_false] at hv
        simp [hv, h]
  refine ⟨heq, ?_⟩
  intro code detail hcontra
  rw [heq] at hcontra
  cases hcontra

theorem update_delivery_status_failure_witness :
    update_delivery_status (fun _s => true) envC9 "o9" "PREPARING"
        "Your order is being prepared" 0 =
      .attributeError "HTTP_404_NOT_FOUND" ∧
    ∀ code detail,
      update_delivery_status (fun _s => true) envC9 "o9" "PREPARING"
          "Your order is being prepared" 0 ≠
        .httpError code detail :=
  update_delivery_status_lookup_failure_raises_attribute_error
    (fun _s => true) envC9 "o9" "PREPARING" "Your order is being prepared" 0
    (Or.inr (by rfl))

/-- C4: user-initiated cancellation of an owned order succeeds exactly from
status "PENDING" or "CONFIRMED", setting the status to "CANCELLED"; from
any other status it fails BadRequest("Order cannot be cancelled at this
stage") and writes nothing. -/
theorem cancel_order_iff_pending_or_confirmed
    (orders : List OrderDoc) (current_user order_id : String) (order : OrderDoc)
    (hnd : (orders.map (fun o => o.id)).Nodup)
    (hfind : orders.find?
      (fun o => o.id == order_id && o.user_id == current_user) = some order) :
    ((order.status = "PENDING" ∨ order.status = "CONFIRMED") →
      cancel_order orders current_user order_id =
        .ok (updateFirst (fun o => o.id == order_id)
               (fun o => { o with status := "CANCELLED" }) orders,
             some { order with status := "CANCELLED" })) ∧
    (order.status ≠ "PENDING" → order.status ≠ "CONFIRMED" →
      cancel_order orders current_user order_id =
        .error (.badRequest "Order cannot be cancelled at this stage")) := by
  have hoid : order.id = order_id := by
    have := List.find?_some hfind
    rw [Bool.and_eq_true] at this
    exact beq_iff_eq.mp this.1
  have hmem := List.mem_of_find?_eq_some hfind
  constructor
  · intro h
    have hcond : (!(order.status == "PENDING" || order.status == "CONFIRMED"))
        = false := by
      rcases h with h | h <;> simp [h]
    simp only [cancel_order, hfind, hcond, Bool.false_eq_true, if_false]
    have hfid : orders.find? (fun o => o.id == order_id) = some order :=
      find?_key_eq_of_mem_nodup (fun o => o.id) order_id orders hnd order
        hmem hoid
    rw [updateFirst_find?_same hfid (by intro y; rfl)]
  · intro h1 h2
    have hcond : (!(order.status == "PENDING" || order.status == "CONFIRMED"))
        = true := by
      simp [beq_eq_false_iff_ne.mpr h1, beq_eq_false_iff_ne.mpr h2]
    simp only [cancel_order, hfind, hcond, if_true]

theorem cancel_order_witness :
    cancel_order [ordC4] "u1" "o1" =
      .ok (updateFirst (fun o => o.id == "o1")
             (fun o => { o with status := "CANCELLED" }) [ordC4],
           some { ordC4 with status := "CANCELLED" }) :=
  (cancel_order_iff_pending_or_confirmed [ordC4] "u1" "o1" ordC4
    (by simp) (by rfl)).1 (Or.inl rfl)

/-- C7: adding an item whose `menu_item_id` already has a cart line replaces
that line's quantity, price and subtotal with the freshly fetched price and
`price × quantity` (no increment); otherwise a new line is appended with the
denormalized name and the catalog item's first image URL. -/
theorem add_item_replaces_existing_line_or_appends
    (menu : List MenuItem) (cart : Cart) (menu_item_id newLineId : String)
    (q : ℤ) (m : MenuItem)
    (hnd : (cart.items.map (fun it => it.id)).Nodup)
    (hm : menu.find? (fun mm => mm.id == menu_item_id) = some m)
    (hav : m.is_available = true) :
    (∀ ex, cart.items.find? (fun it => it.menu_item_id == menu_item_id)
        = some ex →
      ∃ c1, add_item_to_cart menu cart menu_item_id q newLineId = .ok c1 ∧
        c1.total = calcTotal c1.items ∧
        c1.items.length = cart.items.length ∧
        c1.items.find? (fun it => it.id == ex.id) =
          some { ex with
            quantity := q
            price := m.price
            subtotal := m.price * q } ∧
        ∀ it ∈ c1.items, it.id ≠ ex.id → it ∈ cart.items) ∧
    (cart.items.find? (fun it => it.menu_item_id == menu_item_id) = none →
      ∃ c1, add_item_to_cart menu cart menu_item_id q newLineId = .ok c1 ∧
        c1.total = calcTotal c1.items ∧
        c1.items = cart.items ++ [{
          id := newLineId
          menu_item_id := menu_item_id
          name := m.name
          price := m.price
          quantity := q
          subtotal := m.price * q
          image_url := (m.images.head?).bind (fun im => im.url) }]) := by
  have havne : ¬(m.is_available = false) := by simp [hav]
  constructor
  · intro ex hex
    refine ⟨{ cart with
        items := updateFirst (fun it => it.id == ex.id)
          (fun it => { it with
            quantity := q
            price := m.price
            subtotal := m.price * q }) cart.items
        total := calcTotal (updateFirst (fun it => it.id == ex.id)
          (fun it => { it with
            quantity := q
            price := m.price
            subtotal := m.price * q }) cart.items) }, ?_, rfl, ?_, ?_, ?_⟩
    · simp only [add_item_to_cart, hm, hex]
      rw [if_neg havne]
    · exact updateFirst_length _ _ _
    · have hexid : ex.id = ex.id := rfl
      have hexmem := List.mem_of_find?_eq_some hex
      have hfid : cart.items.find? (fun it => it.id == ex.id) = some ex :=
        find?_key_eq_of_mem_nodup (fun it => it.id) ex.id cart.items hnd ex
          hexmem hexid
      exact updateFirst_find?_same hfid (by intro y; rfl)
    · intro it hit hne
      rcases mem_updateFirst hit with hin | ⟨x, hx, hpx, hfx⟩
      · exact hin
      · exact absurd (by rw [hfx]; exact beq_iff_eq.mp hpx) hne
  · intro hnone
    refine ⟨{ cart with
        items := cart.items ++ [{
          id := newLineId
          menu_item_id := menu_item_id
          name := m.name
          price := m.price
          quantity := q
          subtotal := m.price * q
          image_url := (m.images.head?).bind (fun im => im.url) }]
        total := calcTotal (cart.items ++ [{
          id := newLineId
          menu_item_id := menu_item_id
          name := m.name
          price := m.price
          quantity := q
          subtotal := m.price * q
          image_url := (m.images.head?).bind (fun im => im.url) }]) },
      ?_, rfl, rfl⟩
    simp only [add_item_to_cart, hm, hnone]
    rw [if_neg havne]

theorem add_item_witness :
    (∀ ex, cartC1.items.find? (fun it => it.menu_item_id == "m1") = some ex →
      ∃ c1, add_item_to_cart sampleMenu cartC1 "m1" 7 "l9" = .ok c1 ∧
        c1.total = calcTotal c1.items ∧
        c1.items.length = cartC1.items.length ∧
        c1.items.find? (fun it => it.id == ex.id) =
          some { ex with
            quantity := 7
            price := menuA.price
            subtotal := menuA.price * 7 } ∧
        ∀ it ∈ c1.items, it.id ≠ ex.id → it ∈ cartC1.items) ∧
    (cartC1.items.find? (fun it => it.menu_item_id == "m1") = none →
      ∃ c1, add_item_to_cart sampleMenu cartC1 "m1" 7 "l9" = .ok c1 ∧
        c1.total = calcTotal c1.items ∧
        c1.items = cartC1.items ++ [{
          id := "l9"
          menu_item_id := "m1"
          name := menuA.name
          price := menuA.price
          quantity := 7
          subtotal := menuA.price * 7
          image_url := (menuA.images.head?).bind (fun im => im.url) }]) :=
  add_item_replaces_existing_line_or_appends sampleMenu cartC1 "m1" "l9" 7
    menuA (by simp [cartC1]) (by rfl) (by rfl)

/-- C1 (amended): a successful order creation builds every order line from
the catalog item freshly fetched under the cart line's `menu_item_id`
(price and subtotal from the current catalog price, not the cart's cached
one), and in the same transition empties the source cart's items — but the
cart's stored `total` is left at its previous value (only the read path
recomputes it to 0). -/
theorem create_order_refetches_prices_and_clears_items
    (env : OrderEnv) (current_user cart_id delivery_address_id : String)
    (si : Option String) (orderId : String) (fresh : ℕ → String)
    (cart : Cart) (env2 : OrderEnv) (order : OrderDoc)
    (hndc : (env.carts.map (fun c => c.id)).Nodup)
    (hcart : env.carts.find?
      (fun c => c.id == cart_id && c.user_id == current_user) = some cart)
    (hok : create_order env current_user cart_id delivery_address_id si
      orderId fresh = .ok (env2, order)) :
    order.items.length = cart.items.length ∧
    (∀ i ci, cart.items[i]? = some ci →
      ∃ m, env.menu_items.find? (fun mm => mm.id == ci.menu_item_id)
          = some m ∧
        order.items[i]? = some ({
          id := fresh i
          menu_item_id := m.id
          name := m.name
          price := m.price
          quantity := ci.quantity
          subtotal := m.price * ci.quantity } : OrderItem)) ∧
    (∃ c2, env2.carts.find? (fun c => c.id == cart_id) = some c2 ∧
      c2.items = [] ∧ c2.total = cart.total) := by
  simp only [create_order, hcart] at hok
  split at hok
  · exact absurd hok (by simp)
  · split at hok
    · exact absurd hok (by simp)
    · split at hok
      · exact absurd hok (by simp)
      · rename_i items0 sub0 hbuild
        cases hok
        obtain ⟨hlen, hsum, hpt⟩ := buildOrderItems_spec env.menu_items fresh
          cart.items 0 items0 sub0 hbuild
        refine ⟨hlen, ?_, ?_⟩
        · intro i ci hci
          obtain ⟨m, hm, hmav, hit⟩ := hpt i ci hci
          refine ⟨m, hm, ?_⟩
          rw [Nat.zero_add] at hit
          exact hit
        · have hcid : cart.id = cart_id := by
            have := List.find?_some hcart
            rw [Bool.and_eq_true] at this
            exact beq_iff_eq.mp this.1
          have hmem := List.mem_of_find?_eq_some hcart
          have hfid : env.carts.find? (fun c => c.id == cart_id) = some cart :=
            find?_key_eq_of_mem_nodup (fun c => c.id) cart_id env.carts hndc
              cart hmem hcid
          refine ⟨{ cart with items := [] }, ?_, rfl, rfl⟩
          exact updateFirst_find?_same hfid (by intro y; rfl)

/-- C8 (amended): a successfully created order carries
`delivery_fee = 5.00`, `tax = subtotal × 0.075` and
`total_amount = subtotal + 5.00 + tax`, with status PENDING and
payment_status PENDING, where `subtotal` is the sum of the order's own
item subtotals as recomputed from the current catalog prices (equal to the
cart's stored sum only when prices did not drift). -/
theorem order_totals_formula
    (env : OrderEnv) (current_user cart_id delivery_address_id : String)
    (si : Option String) (orderId : String) (fresh : ℕ → String)
    (env2 : OrderEnv) (order : OrderDoc)
    (hok : create_order env current_user cart_id delivery_address_id si
      orderId fresh = .ok (env2, order)) :
    order.subtotal = (order.items.map (fun it => it.subtotal)).sum ∧
    order.delivery_fee = 5 ∧
    order.tax = order.subtotal * (75 / 1000) ∧
    order.total_amount = order.subtotal + 5 + order.subtotal * (75 / 1000) ∧
    order.status = "PENDING" ∧ order.payment_status = "PENDING" := by
  simp only [create_order] at hok
  split at hok
  · exact absurd hok (by simp)
  · split at hok
    · exact absurd hok (by simp)
    · split at hok
      · exact absurd hok (by simp)
      · split at hok
        · exact absurd hok (by simp)
        · rename_i items0 sub0 hbuild
          cases hok
          obtain ⟨hlen, hsum, hpt⟩ := buildOrderItems_spec _ fresh _ 0
            items0 sub0 hbuild
          exact ⟨hsum, rfl, rfl, rfl, rfl, rfl⟩

theorem create_order_clears_items_witness :
    c1OrderW.items.length = cartC1.items.length ∧
    (∀ i ci, cartC1.items[i]? = some ci →
      ∃ m, envC1.menu_items.find? (fun mm => mm.id == ci.menu_item_id)
          = some m ∧
        c1OrderW.items[i]? = some ({
          id := freshW i
          menu_item_id := m.id
          name := m.name
          price := m.price
          quantity := ci.quantity
          subtotal := m.price * ci.quantity } : OrderItem)) ∧
    (∃ c2, c1Env2W.carts.find? (fun c => c.id == "c1") = some c2 ∧
      c2.items = [] ∧ c2.total = cartC1.total) :=
  create_order_refetches_prices_and_clears_items envC1 "u1" "c1" "a1" none
    "o1" freshW cartC1 c1Env2W c1OrderW (by decide) (by rfl) (by rfl)

theorem create_order_cart_total_not_reset :
    create_order envC1 "u1" "c1" "a1" none "o1" freshW
        = .ok (c1Env2W, c1OrderW) ∧
    c1Env2W.carts.find? (fun c => c.id == "c1")
        = some { cartC1 with items := [] } ∧
    ({ cartC1 with items := [] } : Cart).total = 25 ∧ ((25 : ℚ) ≠ 0) := by
  refine ⟨rfl, by rfl, rfl, by norm_num⟩

theorem order_totals_formula_witness :
    (c1OrderW.subtotal = (c1OrderW.items.map (fun it => it.subtotal)).sum ∧
     c1OrderW.delivery_fee = 5 ∧
     c1OrderW.tax = c1OrderW.subtotal * (75 / 1000) ∧
     c1OrderW.total_amount
        = c1OrderW.subtotal + 5 + c1OrderW.subtotal * (75 / 1000) ∧
     c1OrderW.status = "PENDING" ∧ c1OrderW.payment_status = "PENDING") ∧
    c1OrderW.subtotal = 25 ∧ c1OrderW.tax = 15 / 8 ∧
    c1OrderW.total_amount = 255 / 8 := by
  have hmain := order_totals_formula envC1 "u1" "c1" "a1" none "o1" freshW
    c1Env2W c1OrderW rfl
  have hs : c1OrderW.subtotal
      = (10 : ℚ) * ((2 : ℤ) : ℚ) + ((5 : ℚ) * ((1 : ℤ) : ℚ) + 0) := rfl
  have hs25 : c1OrderW.subtotal = 25 := by rw [hs]; push_cast; norm_num
  obtain ⟨h1, h2, h3, h4, h5, h6⟩ := hmain
  refine ⟨⟨h1, h2, h3, h4, h5, h6⟩, hs25, ?_, ?_⟩
  · rw [h3, hs25]; norm_num
  · rw [h4, hs25]; norm_num

theorem order_totals_not_from_cart_subtotals :
    ((cartC8.items.map (fun it => it.subtotal)).sum = 20) ∧
    create_order c8Env "u1" "c1" "a1" none "o1" freshW
        = .ok (c8Env2W, c8OrderW) ∧
    c8OrderW.tax ≠ (20 : ℚ) * (75 / 1000) := by
  refine ⟨by norm_num [cartC8], rfl, ?_⟩
  have h : c8OrderW.tax
      = ((30 : ℚ) * ((2 : ℤ) : ℚ) + 0) * ((75 : ℚ) / 1000) := rfl
  rw [h]
  push_cast
  norm_num

/-- C3: verification of an existing payment reference is idempotent (a
second run with the same gateway answer returns the same state and body and
re-applies the same writes), inserts no second payment record, performs the
same reconciliation as the gateway callback, maps gateway status "success"
to PAID and anything else to FAILED, and persists the status onto both the
payment (with the raw payload) and the order. -/
theorem payment_verification_idempotent_and_paths_agree
    (db : PayDb) (current_user reference : String)
    (resp : GatewayVerifyResponse) (pay : Payment)
    (hfind : db.payments.find?
      (fun p => p.reference == reference && p.user_id == current_user)
        = some pay)
    (hhttp : resp.http_status = 200) (hflag : resp.status = true) :
    ∃ db1 body,
      verify_payment db current_user reference resp = .ok (db1, body) ∧
      verify_payment db1 current_user reference resp = .ok (db1, body) ∧
      db1.payments.length = db.payments.length ∧
      paystack_callback db (some reference) resp =
        .ok (db1, { success := true, status := some body.status,
                    message := "Payment processed successfully" }) ∧
      body.status
          = (if resp.data.status = "success" then "PAID" else "FAILED") ∧
      (∀ p ∈ db1.payments, p ∈ db.payments ∨
        (p.status = body.status ∧ p.transaction_data = some resp.data)) ∧
      (∀ o ∈ db1.orders, o ∈ db.orders ∨ o.payment_status = body.status) := by
  have hh : ¬(resp.http_status ≠ 200) := by simp [hhttp]
  have hf : ¬(resp.status = false) := by simp [hflag]
  refine ⟨{ payments := updateFirst (fun p => p.reference == reference)
              (fun p => { p with
                status := if resp.data.status == "success" then "PAID"
                          else "FAILED"
                transaction_data := some resp.data }) db.payments
            orders := updateFirst
              (fun o => o.payment_reference == some reference)
              (fun o => { o with
                payment_status := if resp.data.status == "success" then "PAID"
                                  else "FAILED" }) db.orders },
          { success := true
            status := if resp.data.status == "success" then "PAID"
                      else "FAILED"
            data := resp.data }, ?_, ?_, ?_, ?_, ?_, ?_, ?_⟩
  · simp only [verify_payment, hfind]
    rw [if_neg hh, if_neg hf]
  · have hsome : ((updateFirst (fun p => p.reference == reference)
        (fun p => { p with
          status := if resp.data.status == "success" then "PAID" else "FAILED"
          transaction_data := some resp.data }) db.payments).find?
        (fun p => p.reference == reference && p.user_id == current_user)).isSome
        = true := by
      rw [find?_isSome_updateFirst (by intro x; rfl)]
      rw [hfind]
      rfl
    obtain ⟨pay1, hpay1⟩ := Option.isSome_iff_exists.mp hsome
    simp only [verify_payment, hpay1]
    rw [if_neg hh, if_neg hf]
    rw [updateFirst_idem (by intro x; rfl) (by intro x; rfl)]
    rw [updateFirst_idem (by intro x; rfl) (by intro x; rfl)]
  · exact updateFirst_length _ _ _
  · simp only [paystack_callback]
    rw [if_neg hh, if_neg hf]
  · by_cases h : resp.data.status = "success" <;> simp [h]
  · intro p hp
    rcases mem_updateFirst hp with hin | ⟨x, hx, hpx, hfx⟩
    · exact Or.inl hin
    · exact Or.inr ⟨by rw [hfx], by rw [hfx]⟩
  · intro o ho
    rcases mem_updateFirst ho with hin | ⟨x, hx, hpx, hfx⟩
    · exact Or.inl hin
    · exact Or.inr (by rw [hfx])

theorem payment_verification_witness :
    ∃ db1 body,
      verify_payment dbPayW "u1" "ref1" respW = .ok (db1, body) ∧
      verify_payment db1 "u1" "ref1" respW = .ok (db1, body) ∧
      db1.payments.length = dbPayW.payments.length ∧
      paystack_callback dbPayW (some "ref1") respW =
        .ok (db1, { success := true, status := some body.status,
                    message := "Payment processed successfully" }) ∧
      body.status
          = (if respW.data.status = "success" then "PAID" else "FAILED") ∧
      (∀ p ∈ db1.payments, p ∈ dbPayW.payments ∨
        (p.status = body.status ∧ p.transaction_data = some respW.data)) ∧
      (∀ o ∈ db1.orders, o ∈ dbPayW.orders ∨ o.payment_status = body.status) :=
  payment_verification_idempotent_and_paths_agree dbPayW "u1" "ref1" respW
    payW (by rfl) (by rfl) (by rfl)

theorem mem_updateFirst_of_not_p {α : Type} {p : α → Bool} {f : α → α} :
    ∀ {xs : List α} {x : α}, x ∈ xs → p x = false → x ∈ updateFirst p f xs := by
  intro xs
  induction xs with
  | nil => intro x hx; simp at hx
  | cons a xs ih =>
    intro x hx hpx
    by_cases h : p a = true
    · simp only [updateFirst, h, if_true]
      rcases List.mem_cons.mp hx with hx | hx
      · subst hx
        exact absurd h (by simp [hpx])
      · exact List.mem_cons_of_mem _ hx
    · simp only [updateFirst, h, if_false]
      rcases List.mem_cons.mp hx with hx | hx
      · exact hx ▸ List.mem_cons_self a _
      · exact List.mem_cons_of_mem _ (ih hx hpx)

theorem two_mem_filter_length {α : Type} (q : α → Bool) :
    ∀ (l : List α) (x y : α), x ∈ l → y ∈ l → x ≠ y →
      q x = true → q y = true → 2 ≤ (l.filter q).length := by
  intro l
  induction l with
  | nil => intro x y hx; simp at hx
  | cons a l ih =>
    intro x y hx hy hne hqx hqy
    rcases List.mem_cons.mp hx with hxa | hxl <;>
      rcases List.mem_cons.mp hy with hya | hyl
    · exact absurd (hxa.trans hya.symm) hne
    · subst hxa
      rw [List.filter_cons, if_pos hqx, List.length_cons]
      have : y ∈ l.filter q := List.mem_filter.mpr ⟨hyl, hqy⟩
      have := List.length_pos_of_mem this
      omega
    · subst hya
      rw [List.filter_cons, if_pos hqy, List.length_cons]
      have : x ∈ l.filter q := List.mem_filter.mpr ⟨hxl, hqx⟩
      have := List.length_pos_of_mem this
      omega
    · have := ih x y hxl hyl hne hqx hqy
      rw [List.filter_cons]
      by_cases hqa : q a = true
      · rw [if_pos hqa, List.length_cons]
        omega
      · rw [if_neg hqa]
        exact this

theorem address_default_invariant_broken_by_unset_update :
    update_address addrsW "u1" "a1" unsetDefaultUpd = .ok addrsAfterUnset ∧
    addrsAfterUnset.length = 2 ∧
    (∀ a ∈ addrsAfterUnset, a.user_id = "u1") ∧
    defaultCount addrsAfterUnset "u1" = 0 ∧ (0 : ℕ) ≠ 1 := by
  exact ⟨by rfl, by rfl, by decide, by rfl, by decide⟩

/-- The body of `create_address`, with the forced-default flag abstracted:
it preserves the exactly-one-default invariant. -/
theorem create_address_core
    (as : List Address) (u l c i : String) (d1 : Bool) (res : List Address)
    (hres : res = (if d1 = true then
        as.map (fun a =>
          if a.user_id == u then { a with is_default := false } else a)
      else as) ++ [{ id := i, user_id := u, address_line1 := l, city := c,
                     is_default := d1 }])
    (hnd : (as.map (fun a => a.id)).Nodup)
    (hinv : ∀ a ∈ as, defaultCount as a.user_id = 1)
    (hfr : ∀ a ∈ as, a.id ≠ i)
    (hne : d1 = false → (as.filter (fun a => a.user_id == u)) ≠ []) :
    (∀ a ∈ res, defaultCount res a.user_id = 1) ∧
    (res.map (fun a => a.id)).Nodup := by
  have hndres : (res.map (fun a => a.id)).Nodup := by
    have hids : (res.map (fun a => a.id)) = as.map (fun a => a.id) ++ [i] := by
      rw [hres, List.map_append]
      congr 1
      cases d1
      · rw [if_neg (by simp)]
      · rw [if_pos rfl, List.map_map]
        refine List.map_congr_left ?_
        intro a _
        by_cases h : (a.user_id == u) = true
        · rw [Function.comp_apply, if_pos h]
        · rw [Function.comp_apply, if_neg h]
    rw [hids, List.nodup_append]
    refine ⟨hnd, List.nodup_singleton i, ?_⟩
    intro x hx hx2
    simp only [List.mem_singleton] at hx2
    subst hx2
    obtain ⟨a, ha, haid⟩ := List.mem_map.mp hx
    exact hfr a ha haid
  refine ⟨?_, hndres⟩
  cases d1 with
  | true =>
    rw [if_pos rfl] at hres
    have hcount : ∀ v : String, defaultCount res v =
        ((as.map (fun a =>
          if a.user_id == u then { a with is_default := false } else a)).filter
            (fun a => a.user_id == v && a.is_default)).length
          + (if (u == v) = true then 1 else 0) := by
      intro v
      rw [hres]
      simp only [defaultCount, List.filter_append, List.length_append]
      congr 1
      by_cases h : (u == v) = true <;> simp [h]
    have hcount_u : defaultCount res u = 1 := by
      rw [hcount u]
      have hzero := unset_map_count_zero (fun a => a.user_id == u)
        (fun a => a.user_id == u && a.is_default) (by intro a; simp) as
        (by intro a _ hq; exact ((Bool.and_eq_true _ _).mp hq).1)
      rw [hzero]
      simp
    have hcount_other : ∀ v : String, v ≠ u → defaultCount res v
        = defaultCount as v := by
      intro v hv
      rw [hcount v]
      have := unset_map_count_other (fun a => a.user_id == u) v
        (by intro a ha; exact beq_eq_false_iff_ne.mpr (by rw [ha]; exact hv)) as
      rw [this]
      have hb : (u == v) = false := beq_eq_false_iff_ne.mpr (Ne.symm hv)
      simp [hb, defaultCount]
    intro a hamem
    rw [hres] at hamem
    rcases List.mem_append.mp hamem with hin | hnew
    · obtain ⟨b, hb, hba⟩ := List.mem_map.mp hin
      have hbu : a.user_id = b.user_id := by
        rw [← hba]
        by_cases h : (b.user_id == u) = true
        · rw [if_pos h]
        · rw [if_neg h]
      by_cases hvu : a.user_id = u
      · rw [hvu]; exact hcount_u
      · rw [hcount_other a.user_id hvu, hbu]
        exact hinv b hb
    · simp only [List.mem_singleton] at hnew
      subst hnew
      exact hcount_u
  | false =>
    rw [if_neg (by simp)] at hres
    have hcount : ∀ v : String, defaultCount res v = defaultCount as v := by
      intro v
      rw [hres]
      simp [defaultCount, List.filter_append]
    intro a hamem
    rw [hres] at hamem
    rcases List.mem_append.mp hamem with hin | hnew
    · rw [hcount]; exact hinv a hin
    · simp only [List.mem_singleton] at hnew
      subst hnew
      rw [hcount]
      obtain ⟨b, hb⟩ := List.exists_mem_of_ne_nil _ (hne rfl)
      have hb2 := List.mem_filter.mp hb
      have hbu : b.user_id = u := beq_iff_eq.mp hb2.2
      have := hinv b hb2.1
      rw [hbu] at this
      exact this

/-- `update_address` without a default change: the `$set` preserves
`is_default` on the target, so the invariant survives. -/
theorem updateFirst_default_inv_keep
    (as : List Address) (aid : String) (h : Address → Address)
    (hid : ∀ x : Address, (h x).id = x.id)
    (huser : ∀ x : Address, (h x).user_id = x.user_id)
    (hdef : ∀ x : Address, (h x).is_default = x.is_default)
    (hnd : (as.map (fun a => a.id)).Nodup)
    (hinv : ∀ a ∈ as, defaultCount as a.user_id = 1) :
    (∀ a ∈ updateFirst (fun a => a.id == aid) h as,
      defaultCount (updateFirst (fun a => a.id == aid) h as) a.user_id = 1) ∧
    ((updateFirst (fun a => a.id == aid) h as).map (fun a => a.id)).Nodup := by
  have hcount : ∀ v : String,
      defaultCount (updateFirst (fun a => a.id == aid) h as) v
        = defaultCount as v := by
    intro v
    exact filter_length_updateFirst_of_p as
      (by intro x _ _; rw [huser, hdef])
  have hndres : ((updateFirst (fun a => a.id == aid) h as).map
      (fun a => a.id)).Nodup := by
    have heq : (updateFirst (fun a => a.id == aid) h as).map (fun a => a.id)
        = as.map (fun a => a.id) := updateFirst_map_key (fun a => a.id) hid as
    rw [heq]
    exact hnd
  refine ⟨?_, hndres⟩
  intro a ha
  rcases mem_updateFirst ha with hin | ⟨x, hx, hpx, hfx⟩
  · rw [hcount]; exact hinv a hin
  · rw [hcount, hfx, huser]
    exact hinv x hx

/-- `update_address` with `is_default: true`: the unset-others pass plus the
`$set` leaves the target as the single default of its user. -/
theorem updateFirst_default_inv_set_true
    (as as1 : List Address) (u aid : String) (a0 : Address)
    (h : Address → Address)
    (has1 : as1 = as.map (fun a =>
      if a.user_id == u && !(a.id == aid) then { a with is_default := false }
      else a))
    (hid : ∀ x : Address, (h x).id = x.id)
    (huser : ∀ x : Address, (h x).user_id = x.user_id)
    (hdef : ∀ x : Address, (h x).is_default = true)
    (hnd : (as.map (fun a => a.id)).Nodup)
    (hinv : ∀ a ∈ as, defaultCount as a.user_id = 1)
    (ha0 : a0 ∈ as) (ha0id : a0.id = aid) (ha0u : a0.user_id = u) :
    (∀ a ∈ updateFirst (fun a => a.id == aid) h as1,
      defaultCount (updateFirst (fun a => a.id == aid) h as1) a.user_id = 1) ∧
    ((updateFirst (fun a => a.id == aid) h as1).map (fun a => a.id)).Nodup := by
  have hids1 : as1.map (fun a => a.id) = as.map (fun a => a.id) := by
    rw [has1, List.map_map]
    refine List.map_congr_left ?_
    intro a _
    by_cases hg : (a.user_id == u && !(a.id == aid)) = true
    · rw [Function.comp_apply, if_pos hg]
    · rw [Function.comp_apply, if_neg hg]
  have hnd1 : (as1.map (fun a => a.id)).Nodup := by rw [hids1]; exact hnd
  have hguard : (a0.user_id == u && !(a0.id == aid)) = false := by
    simp [ha0id]
  have ha0as1 : a0 ∈ as1 := by
    rw [has1]
    refine List.mem_map.mpr ⟨a0, ha0, ?_⟩
    rw [if_neg (by simp [hguard])]
  have hcount_u :
      defaultCount (updateFirst (fun a => a.id == aid) h as1) u = 1 := by
    have hself : ((as1).filter (fun a => a.user_id == u && a.is_default)).length
        = if a0.is_default = true then 1 else 0 := by
      rw [has1]
      exact unset_map_count_self_except u aid as hnd a0 ha0 ha0id ha0u
    have hkey := updateFirst_filter_length_key (fun a => a.id) aid h
      (fun a => a.user_id == u && a.is_default) as1 hnd1 a0 ha0as1 ha0id
    have hpa0 : (a0.user_id == u && a0.is_default) = a0.is_default := by
      simp [ha0u]
    have hpha0 : ((h a0).user_id == u && (h a0).is_default) = true := by
      rw [huser, hdef, ha0u]
      simp
    simp only [hpa0, hpha0, hself] at hkey
    show ((updateFirst (fun a => a.id == aid) h as1).filter
      (fun a => a.user_id == u && a.is_default)).length = 1
    by_cases hd : a0.is_default = true
    · simp only [hd, if_true] at hkey
      omega
    · simp only [Bool.not_eq_true] at hd
      simp only [hd, Bool.false_eq_true, if_false, if_true] at hkey
      omega
  have hcount_other : ∀ v : String, v ≠ u →
      defaultCount (updateFirst (fun a => a.id == aid) h as1) v
        = defaultCount as v := by
    intro v hv
    have h1 : ((as1).filter (fun a => a.user_id == v && a.is_default)).length
        = defaultCount as v := by
      rw [has1]
      exact unset_map_count_other _ v
        (by intro a ha
            have : (a.user_id == u) = false :=
              beq_eq_false_iff_ne.mpr (by rw [ha]; exact hv)
            simp [this]) as
    have hkey := updateFirst_filter_length_key (fun a => a.id) aid h
      (fun a => a.user_id == v && a.is_default) as1 hnd1 a0 ha0as1 ha0id
    have hpa0 : (a0.user_id == v && a0.is_default) = false := by
      have : (a0.user_id == v) = false :=
        beq_eq_false_iff_ne.mpr (by rw [ha0u]; exact Ne.symm hv)
      simp [this]
    have hpha0 : ((h a0).user_id == v && (h a0).is_default) = false := by
      rw [huser, hdef]
      have : (a0.user_id == v) = false :=
        beq_eq_false_iff_ne.mpr (by rw [ha0u]; exact Ne.symm hv)
      simp [this]
    simp only [hpa0, hpha0, h1, Bool.false_eq_true, if_false,
      Nat.add_zero] at hkey
    exact hkey
  have hndres : ((updateFirst (fun a => a.id == aid) h as1).map
      (fun a => a.id)).Nodup := by
    have heq : (updateFirst (fun a => a.id == aid) h as1).map (fun a => a.id)
        = as1.map (fun a => a.id) := updateFirst_map_key (fun a => a.id) hid as1
    rw [heq]
    exact hnd1
  refine ⟨?_, hndres⟩
  intro a ha
  have hauser : ∃ b ∈ as, b.user_id = a.user_id := by
    rcases mem_updateFirst ha with hin | ⟨x, hx, hpx, hfx⟩
    · rw [has1] at hin
      obtain ⟨b, hb, hba⟩ := List.mem_map.mp hin
      refine ⟨b, hb, ?_⟩
      rw [← hba]
      by_cases hg : (b.user_id == u && !(b.id == aid)) = true
      · rw [if_pos hg]
      · rw [if_neg hg]
    · rw [has1] at hx
      obtain ⟨b, hb, hbx⟩ := List.mem_map.mp hx
      refine ⟨b, hb, ?_⟩
      rw [hfx, huser, ← hbx]
      by_cases hg : (b.user_id == u && !(b.id == aid)) = true
      · rw [if_pos hg]
      · rw [if_neg hg]
  obtain ⟨b, hb, hbu⟩ := hauser
  by_cases hvu : a.user_id = u
  · rw [hvu]; exact hcount_u
  · rw [hcount_other a.user_id hvu, ← hbu]
    exact hinv b hb

/-- Deleting a non-default address never touches any user's default
count. -/
theorem delete_nondefault_inv
    (as : List Address) (aid : String) (a0 : Address)
    (hnd : (as.map (fun a => a.id)).Nodup)
    (hinv : ∀ a ∈ as, defaultCount as a.user_id = 1)
    (ha0 : a0 ∈ as) (ha0id : a0.id = aid) (hd : a0.is_default = false) :
    (∀ a ∈ removeFirst (fun a => a.id == aid) as,
      defaultCount (removeFirst (fun a => a.id == aid) as) a.user_id = 1) ∧
    ((removeFirst (fun a => a.id == aid) as).map (fun a => a.id)).Nodup := by
  have hcount : ∀ v : String,
      defaultCount (removeFirst (fun a => a.id == aid) as) v
        = defaultCount as v := by
    intro v
    have hkey := removeFirst_filter_length_key (fun a => a.id) aid
      (fun a => a.user_id == v && a.is_default) as hnd a0 ha0 ha0id
    have hpa0 : (a0.user_id == v && a0.is_default) = false := by simp [hd]
    simp only [hpa0, Bool.false_eq_true, if_false, Nat.add_zero] at hkey
    exact hkey
  have hndres : ((removeFirst (fun a => a.id == aid) as).map
      (fun a => a.id)).Nodup :=
    List.Nodup.sublist
      (List.Sublist.map (fun a => a.id)
        (removeFirst_sublist (fun a => a.id == aid) as)) hnd
  refine ⟨?_, hndres⟩
  intro a ha
  rw [hcount]
  exact hinv a (mem_removeFirst ha)

/-- Deleting the default address of a user who has no other address: every
remaining address belongs to other users, whose counts are untouched. -/
theorem delete_default_last_inv
    (as : List Address) (u aid : String) (a0 : Address)
    (hnd : (as.map (fun a => a.id)).Nodup)
    (hinv : ∀ a ∈ as, defaultCount as a.user_id = 1)
    (ha0 : a0 ∈ as) (ha0id : a0.id = aid) (ha0u : a0.user_id = u)
    (hnone : ∀ b ∈ as, b.user_id = u → b.id = aid) :
    (∀ a ∈ removeFirst (fun a => a.id == aid) as,
      defaultCount (removeFirst (fun a => a.id == aid) as) a.user_id = 1) ∧
    ((removeFirst (fun a => a.id == aid) as).map (fun a => a.id)).Nodup := by
  have hndres : ((removeFirst (fun a => a.id == aid) as).map
      (fun a => a.id)).Nodup :=
    List.Nodup.sublist
      (List.Sublist.map (fun a => a.id)
        (removeFirst_sublist (fun a => a.id == aid) as)) hnd
  refine ⟨?_, hndres⟩
  intro a ha
  have hain := mem_removeFirst ha
  by_cases hau : a.user_id = u
  · exfalso
    have haid : a.id = aid := hnone a hain hau
    have heq : a = a0 := nodup_key_mem_eq (fun a => a.id) as hnd a a0 hain ha0
      (by show a.id = a0.id; rw [haid, ha0id])
    exact (not_mem_removeFirst_of_nodup (fun a => a.id) aid as hnd a hain haid)
      ha
  · have hkey := removeFirst_filter_length_key (fun a => a.id) aid
      (fun x => x.user_id == a.user_id && x.is_default) as hnd a0 ha0 ha0id
    have hpa0 : (a0.user_id == a.user_id && a0.is_default) = false := by
      have : (a0.user_id == a.user_id) = false :=
        beq_eq_false_iff_ne.mpr (by rw [ha0u]; exact fun hh => hau hh.symm)
      simp [this]
    simp only [hpa0, Bool.false_eq_true, if_false, Nat.add_zero] at hkey
    have hiv := hinv a hain
    have hdc : defaultCount as a.user_id
        = (as.filter (fun x => x.user_id == a.user_id && x.is_default)).length :=
      rfl
    show ((removeFirst (fun a => a.id == aid) as).filter
      (fun x => x.user_id == a.user_id && x.is_default)).length = 1
    omega

/-- Deleting the default address of a user who still has another address:
the source first promotes one of the others, so exactly one default
remains. -/
theorem delete_default_promote_inv
    (as : List Address) (u aid : String) (a0 b0 : Address)
    (hnd : (as.map (fun a => a.id)).Nodup)
    (hinv : ∀ a ∈ as, defaultCount as a.user_id = 1)
    (ha0 : a0 ∈ as) (ha0id : a0.id = aid) (ha0u : a0.user_id = u)
    (ha0d : a0.is_default = true)
    (hb0 : b0 ∈ as) (hb0u : b0.user_id = u) (hb0id : b0.id ≠ aid) :
    (∀ a ∈ removeFirst (fun a => a.id == aid)
        (updateFirst (fun a => a.id == b0.id)
          (fun a => { a with is_default := true }) as),
      defaultCount (removeFirst (fun a => a.id == aid)
        (updateFirst (fun a => a.id == b0.id)
          (fun a => { a with is_default := true }) as)) a.user_id = 1) ∧
    ((removeFirst (fun a => a.id == aid)
        (updateFirst (fun a => a.id == b0.id)
          (fun a => { a with is_default := true }) as)).map
      (fun a => a.id)).Nodup := by
  have hne0 : a0 ≠ b0 := by
    intro he
    exact hb0id (by rw [← he, ha0id])
  have hcountu : defaultCount as u = 1 := by
    have := hinv a0 ha0
    rw [ha0u] at this
    exact this
  have hb0d : b0.is_default = false := by
    by_cases hbd : b0.is_default = true
    · exfalso
      have h2 := two_mem_filter_length
        (fun x => x.user_id == u && x.is_default) as a0 b0 ha0 hb0 hne0
        (by simp [ha0u, ha0d]) (by simp [hb0u, hbd])
      have : defaultCount as u
          = (as.filter (fun x => x.user_id == u && x.is_default)).length := rfl
      omega
    · simp only [Bool.not_eq_true] at hbd
      exact hbd
  have hfid : ∀ x : Address, ({ x with is_default := true } : Address).id
      = x.id := fun x => rfl
  have hidsP : (updateFirst (fun a => a.id == b0.id)
      (fun a => { a with is_default := true }) as).map (fun a => a.id)
        = as.map (fun a => a.id) :=
    updateFirst_map_key (fun a => a.id) hfid as
  have hndP : ((updateFirst (fun a => a.id == b0.id)
      (fun a => { a with is_default := true }) as).map
      (fun a => a.id)).Nodup := by
    rw [hidsP]
    exact hnd
  have ha0P : a0 ∈ updateFirst (fun a => a.id == b0.id)
      (fun a => { a with is_default := true }) as :=
    mem_updateFirst_of_not_p ha0
      (beq_eq_false_iff_ne.mpr (by rw [ha0id]; exact fun hh => hb0id hh.symm))
  have hcount : ∀ v : String,
      defaultCount (removeFirst (fun a => a.id == aid)
        (updateFirst (fun a => a.id == b0.id)
          (fun a => { a with is_default := true }) as)) v
        = (if v = u then 1 else defaultCount as v) := by
    intro v
    have hkeyU := updateFirst_filter_length_key (fun a => a.id) b0.id
      (fun a => { a with is_default := true })
      (fun x => x.user_id == v && x.is_default) as hnd b0 hb0 rfl
    have hkeyR := removeFirst_filter_length_key (fun a => a.id) aid
      (fun x => x.user_id == v && x.is_default)
      (updateFirst (fun a => a.id == b0.id)
        (fun a => { a with is_default := true }) as) hndP a0 ha0P ha0id
    by_cases hv : v = u
    · subst hv
      have hp1 : (b0.user_id == v && b0.is_default) = false := by
        simp [hb0d]
      have hp2 : ((({ b0 with is_default := true } : Address)).user_id == v
          && (({ b0 with is_default := true } : Address)).is_default) = true := by
        simp [hb0u]
      have hp3 : (a0.user_id == v && a0.is_default) = true := by
        simp [ha0u, ha0d]
      simp only [hp1, hp2, hp3, Bool.false_eq_true, if_false, if_true,
        Nat.add_zero] at hkeyU hkeyR
      have hcv : defaultCount as v = 1 := hcountu
      have hdc : defaultCount as v
          = (as.filter (fun x => x.user_id == v && x.is_default)).length := rfl
      rw [if_pos rfl]
      show ((removeFirst (fun a => a.id == aid)
        (updateFirst (fun a => a.id == b0.id)
          (fun a => { a with is_default := true }) as)).filter
            (fun x => x.user_id == v && x.is_default)).length = 1
      omega
    · have hvne : (b0.user_id == v) = false :=
        beq_eq_false_iff_ne.mpr (by rw [hb0u]; exact fun hh => hv hh.symm)
      have hp1 : (b0.user_id == v && b0.is_default) = false := by simp [hvne]
      have hp2 : ((({ b0 with is_default := true } : Address)).user_id == v
          && (({ b0 with is_default := true } : Address)).is_default)
            = false := by
        simp only [Bool.and_true]
        exact hvne
      have hp3 : (a0.user_id == v && a0.is_default) = false := by
        have : (a0.user_id == v) = false :=
          beq_eq_false_iff_ne.mpr (by rw [ha0u]; exact fun hh => hv hh.symm)
        simp [this]
      simp only [hp1, hp2, hp3, Bool.false_eq_true, if_false,
        Nat.add_zero] at hkeyU hkeyR
      rw [if_neg hv]
      show ((removeFirst (fun a => a.id == aid)
        (updateFirst (fun a => a.id == b0.id)
          (fun a => { a with is_default := true }) as)).filter
            (fun x => x.user_id == v && x.is_default)).length
          = defaultCount as v
      have hdc : defaultCount as v
          = (as.filter (fun x => x.user_id == v && x.is_default)).length := rfl
      omega
  have hndres : ((removeFirst (fun a => a.id == aid)
      (updateFirst (fun a => a.id == b0.id)
        (fun a => { a with is_default := true }) as)).map
      (fun a => a.id)).Nodup :=
    List.Nodup.sublist
      (List.Sublist.map (fun a => a.id)
        (removeFirst_sublist (fun a => a.id == aid)
          (updateFirst (fun a => a.id == b0.id)
            (fun a => { a with is_default := true }) as))) hndP
  refine ⟨?_, hndres⟩
  intro a ha
  have haP := mem_removeFirst ha
  have hauser : ∃ b ∈ as, b.user_id = a.user_id := by
    rcases mem_updateFirst haP with hin | ⟨x, hx, hpx, hfx⟩
    · exact ⟨a, hin, rfl⟩
    · exact ⟨x, hx, by rw [hfx]⟩
  obtain ⟨b, hb, hbu2⟩ := hauser
  rw [hcount]
  by_cases hau : a.user_id = u
  · rw [if_pos hau]
  · rw [if_neg hau, ← hbu2]
    exact hinv b hb

/-- C6 (amended): when every id is store-unique, the exactly-one-default
invariant (every user with at least one address has exactly one default) is
preserved by address creation with a fresh id, by address deletion, and by
every update whose payload does not set `is_default` to `false`; an update
that does set `is_default: false` on the sole default breaks it (see the
counterexample). -/
theorem address_default_invariant_preserved
    (addresses : List Address) (op : AddressOp)
    (hnd : (addresses.map (fun a => a.id)).Nodup)
    (hinv : ∀ a ∈ addresses, defaultCount addresses a.user_id = 1)
    (hfresh : ∀ u l c d i, op = .create u l c d i →
      ∀ a ∈ addresses, a.id ≠ i)
    (hupd : ∀ u aid upd, op = .update u aid upd →
      upd.is_default ≠ some false) :
    (∀ a ∈ applyAddressOp addresses op,
      defaultCount (applyAddressOp addresses op) a.user_id = 1) ∧
    ((applyAddressOp addresses op).map (fun a => a.id)).Nodup := by
  cases op with
  | create u l c d i =>
    refine create_address_core addresses u l c i
      (if (addresses.filter (fun a => a.user_id == u)).length = 0 then true
       else d)
      (applyAddressOp addresses (.create u l c d i)) rfl hnd hinv
      (hfresh u l c d i rfl) ?_
    intro hfalse
    by_cases hc : (addresses.filter (fun a => a.user_id == u)).length = 0
    · rw [if_pos hc] at hfalse
      cases hfalse
    · intro hnil
      exact hc (by rw [hnil]; rfl)
  | update u aid upd =>
    have hnsf := hupd u aid upd rfl
    cases hf : addresses.find? (fun a => a.id == aid && a.user_id == u) with
    | none =>
      have heq : applyAddressOp addresses (.update u aid upd) = addresses := by
        simp only [applyAddressOp, update_address, hf]
        rfl
      rw [heq]
      exact ⟨hinv, hnd⟩
    | some a0 =>
      have hfs := List.find?_some hf
      rw [Bool.and_eq_true] at hfs
      have ha0id : a0.id = aid := beq_iff_eq.mp hfs.1
      have ha0u : a0.user_id = u := beq_iff_eq.mp hfs.2
      have ha0mem := List.mem_of_find?_eq_some hf
      by_cases hempty : (upd.address_line1.isNone && upd.city.isNone
          && upd.is_default.isNone) = true
      · have heq : applyAddressOp addresses (.update u aid upd)
            = addresses := by
          simp only [applyAddressOp, update_address, hf, hempty]
          rfl
        rw [heq]
        exact ⟨hinv, hnd⟩
      · cases hdflt : upd.is_default with
        | none =>
          have heq : applyAddressOp addresses (.update u aid upd)
              = updateFirst (fun a => a.id == aid)
                  (fun a => { a with
                    address_line1 := upd.address_line1.getD a.address_line1
                    city := upd.city.getD a.city
                    is_default := (none : Option Bool).getD a.is_default })
                  addresses := by
            simp only [applyAddressOp, update_address, hf, hdflt]
            rw [if_neg (by rw [← hdflt]; exact hempty), if_neg (by simp)]
            rfl
          rw [heq]
          exact updateFirst_default_inv_keep addresses aid _
            (fun x => rfl) (fun x => rfl) (fun x => rfl) hnd hinv
        | some b =>
          cases b with
          | false => exact absurd hdflt hnsf
          | true =>
            have heq : applyAddressOp addresses (.update u aid upd)
                = updateFirst (fun a => a.id == aid)
                    (fun a => { a with
                      address_line1 := upd.address_line1.getD a.address_line1
                      city := upd.city.getD a.city
                      is_default := (some true).getD a.is_default })
                    (addresses.map (fun a =>
                      if a.user_id == u && !(a.id == aid) then
                        { a with is_default := false }
                      else a)) := by
              simp only [applyAddressOp, update_address, hf, hdflt]
              rw [if_neg (by rw [← hdflt]; exact hempty)]
              rfl
            rw [heq]
            exact updateFirst_default_inv_set_true addresses _ u aid a0 _ rfl
              (fun x => rfl) (fun x => rfl) (fun x => rfl) hnd hinv
              ha0mem ha0id ha0u
  | delete u aid =>
    cases hf : addresses.find? (fun a => a.id == aid && a.user_id == u) with
    | none =>
      have heq : applyAddressOp addresses (.delete u aid) = addresses := by
        simp only [applyAddressOp, delete_address, hf]
        rfl
      rw [heq]
      exact ⟨hinv, hnd⟩
    | some a0 =>
      have hfs := List.find?_some hf
      rw [Bool.and_eq_true] at hfs
      have ha0id : a0.id = aid := beq_iff_eq.mp hfs.1
      have ha0u : a0.user_id = u := beq_iff_eq.mp hfs.2
      have ha0mem := List.mem_of_find?_eq_some hf
      by_cases hd : a0.is_default = true
      · cases hf2 : addresses.find?
            (fun a => a.user_id == u && !(a.id == aid)) with
        | some b0 =>
          have hfs2 := List.find?_some hf2
          rw [Bool.and_eq_true] at hfs2
          have hb0u : b0.user_id = u := beq_iff_eq.mp hfs2.1
          have hb0ne : b0.id ≠ aid := by
            have := hfs2.2
            simp only [Bool.not_eq_true'] at this
            exact beq_eq_false_iff_ne.mp this
          have hb0mem := List.mem_of_find?_eq_some hf2
          have heq : applyAddressOp addresses (.delete u aid)
              = removeFirst (fun a => a.id == aid)
                  (updateFirst (fun a => a.id == b0.id)
                    (fun a => { a with is_default := true }) addresses) := by
            simp only [applyAddressOp, delete_address, hf, hf2]
            rw [if_pos hd]
            rfl
          rw [heq]
          exact delete_default_promote_inv addresses u aid a0 b0 hnd hinv
            ha0mem ha0id ha0u hd hb0mem hb0u hb0ne
        | none =>
          have hnone : ∀ b ∈ addresses, b.user_id = u → b.id = aid := by
            intro b hb hbu
            have := List.find?_eq_none.mp hf2 b hb
            simp only [Bool.and_eq_true, Bool.not_eq_true'] at this
            by_cases hbid : b.id = aid
            · exact hbid
            · exfalso
              exact this ⟨beq_iff_eq.mpr hbu,
                beq_eq_false_iff_ne.mpr hbid⟩
          have heq : applyAddressOp addresses (.delete u aid)
              = removeFirst (fun a => a.id == aid) addresses := by
            simp only [applyAddressOp, delete_address, hf, hf2]
            rw [if_pos hd]
            rfl
          rw [heq]
          exact delete_default_last_inv addresses u aid a0 hnd hinv
            ha0mem ha0id ha0u hnone
      · simp only [Bool.not_eq_true] at hd
        have heq : applyAddressOp addresses (.delete u aid)
            = removeFirst (fun a => a.id == aid) addresses := by
          simp only [applyAddressOp, delete_address, hf]
          rw [if_neg (by simp [hd])]
          rfl
        rw [heq]
        exact delete_nondefault_inv addresses aid a0 hnd hinv ha0mem ha0id hd

theorem address_default_invariant_witness :
    (∀ a ∈ applyAddressOp addrsW (.delete "u1" "a1"),
      defaultCount (applyAddressOp addrsW (.delete "u1" "a1")) a.user_id = 1) ∧
    ((applyAddressOp addrsW (.delete "u1" "a1")).map (fun a => a.id)).Nodup :=
  address_default_invariant_preserved addrsW (.delete "u1" "a1")
    (by decide) (by decide)
    (by intro u l c d i h; cases h)
    (by intro u aid upd h; cases h)

/-- The aggregate rewrite of a menu item keeps its id. -/
theorem menu_ids_updateFirst (p : MenuItem → Bool) (A : ℚ) (L : ℕ) :
    ∀ xs : List MenuItem,
      (updateFirst p (fun x => { x with avg_rating := A, review_count := L })
        xs).map (fun x => x.id) = xs.map (fun x => x.id) := by
  intro xs
  induction xs with
  | nil => rfl
  | cons a xs ih =>
    by_cases h : p a = true
    · simp only [updateFirst, h, if_true, List.map_cons]
    · simp [updateFirst, h, ih]

/-- The avg-only rewrite of a menu item keeps its id. -/
theorem menu_ids_updateFirst_avg (p : MenuItem → Bool) (A : ℚ) :
    ∀ xs : List MenuItem,
      (updateFirst p (fun x => { x with avg_rating := A }) xs).map
        (fun x => x.id) = xs.map (fun x => x.id) := by
  intro xs
  induction xs with
  | nil => rfl
  | cons a xs ih =>
    by_cases h : p a = true
    · simp only [updateFirst, h, if_true, List.map_cons]
    · simp [updateFirst, h, ih]

/-- The `$set` of `update_review` keeps the review's id. -/
theorem review_ids_updateFirst (p : Review → Bool) (ro : Option ℤ)
    (co : Option (Option String)) :
    ∀ xs : List Review,
      (updateFirst p (fun x => { x with
        rating := ro.getD x.rating
        comment := co.getD x.comment }) xs).map (fun x => x.id)
        = xs.map (fun x => x.id) := by
  intro xs
  induction xs with
  | nil => rfl
  | cons a xs ih =>
    by_cases h : p a = true
    · simp only [updateFirst, h, if_true, List.map_cons]
    · simp [updateFirst, h, ih]

/-- A successful `create_review` re-establishes the aggregate invariant. -/
theorem create_review_core
    (db : ReviewDb) (u m : String) (r : ℤ) (c : Option String)
    (hndm : (db.menu_items.map (fun x => x.id)).Nodup)
    (hndr : (db.reviews.map (fun x => x.id)).Nodup)
    (hbound : ∀ x ∈ db.reviews, x.id < db.nextId)
    (hagg : ∀ x ∈ db.menu_items,
      x.review_count = (ratingsFor db.reviews x.id).length ∧
      x.avg_rating = ratingAvg (ratingsFor db.reviews x.id))
    (db2 : ReviewDb) (hdb2 : create_review db u m r c = .ok db2) :
    ratingAggInv db2 := by
  simp only [create_review] at hdb2
  split at hdb2
  · exact absurd hdb2 (by simp)
  · split at hdb2
    · exact absurd hdb2 (by simp)
    · cases hdb2
      refine ⟨?_, ?_, ?_, ?_⟩
      · dsimp only
        rw [menu_ids_updateFirst]
        exact hndm
      · dsimp only
        rw [List.map_append, List.nodup_append]
        refine ⟨hndr, by simp, ?_⟩
        intro x hx hx2
        simp only [List.map_cons, List.map_nil, List.mem_singleton] at hx2
        subst hx2
        obtain ⟨y, hy, hyid⟩ := List.mem_map.mp hx
        have := hbound y hy
        omega
      · dsimp only
        intro x hx
        rcases List.mem_append.mp hx with hin | hnew
        · have := hbound x hin
          omega
        · simp only [List.mem_singleton] at hnew
          subst hnew
          show db.nextId < db.nextId + 1
          omega
      · dsimp only
        intro mi2 hmi2
        rcases mem_updateFirst_nodup_key (fun x => x.id) m _ db.menu_items
          hndm mi2 hmi2 with ⟨x, hx, hxid, hy⟩ | ⟨hin, hne⟩
        · subst hy
          dsimp only
          constructor
          · rw [hxid]
            simp [ratingsFor]
          · rw [hxid]
            simp only [ratingAvg, ratingsFor, List.length_map]
        · have hne2 : (m : String) ≠ mi2.id := fun hh => hne (by rw [hh])
          have hr := @ratingsFor_append_ne db.reviews
            { id := db.nextId, menu_item_id := m, user_id := u,
              rating := r, comment := c } mi2.id hne2
          rw [hr]
          exact hagg mi2 hin

/-- A successful `update_review` re-establishes the aggregate invariant
(the rating path recomputes `avg_rating`; `review_count` is untouched but
stays correct since the scan length is unchanged). -/
theorem update_review_core
    (db : ReviewDb) (u : String) (rid : ℕ) (ro : Option ℤ)
    (co : Option (Option String))
    (hndm : (db.menu_items.map (fun x => x.id)).Nodup)
    (hndr : (db.reviews.map (fun x => x.id)).Nodup)
    (hbound : ∀ x ∈ db.reviews, x.id < db.nextId)
    (hagg : ∀ x ∈ db.menu_items,
      x.review_count = (ratingsFor db.reviews x.id).length ∧
      x.avg_rating = ratingAvg (ratingsFor db.reviews x.id))
    (db2 : ReviewDb) (hdb2 : update_review db u rid ro co = .ok db2) :
    ratingAggInv db2 := by
  have hmid : ∀ x : Review,
      ((fun x : Review => { x with
        rating := ro.getD x.rating
        comment := co.getD x.comment }) x).menu_item_id
        = x.menu_item_id := fun x => rfl
  have hrat0 : ro = none → ∀ x : Review,
      ((fun x : Review => { x with
        rating := ro.getD x.rating
        comment := co.getD x.comment }) x).rating = x.rating := by
    intro hro x
    subst hro
    rfl
  simp only [update_review] at hdb2
  split at hdb2
  · exact absurd hdb2 (by simp)
  · rename_i review hfind
    have hrmem := List.mem_of_find?_eq_some hfind
    have hrid : review.id = rid := by
      have := List.find?_some hfind
      rw [Bool.and_eq_true] at this
      exact beq_iff_eq.mp this.1
    split at hdb2
    · cases hdb2
      exact ⟨hndm, hndr, hbound, hagg⟩
    · split at hdb2
      · cases hdb2
        refine ⟨hndm, ?_, ?_, ?_⟩
        · dsimp only
          rw [review_ids_updateFirst]
          exact hndr
        · dsimp only
          intro x hx
          rcases mem_updateFirst hx with hin | ⟨y, hy, hpy, hfy⟩
          · exact hbound x hin
          · rw [hfy]
            show y.id < db.nextId
            exact hbound y hy
        · dsimp only
          intro mi2 hmi2
          rw [ratingsFor_updateFirst_preserve hmid (hrat0 rfl)
            db.reviews mi2.id]
          exact hagg mi2 hmi2
      · cases hdb2
        refine ⟨?_, ?_, ?_, ?_⟩
        · dsimp only
          rw [menu_ids_updateFirst_avg]
          exact hndm
        · dsimp only
          rw [review_ids_updateFirst]
          exact hndr
        · dsimp only
          intro x hx
          rcases mem_updateFirst hx with hin | ⟨y, hy, hpy, hfy⟩
          · exact hbound x hin
          · rw [hfy]
            show y.id < db.nextId
            exact hbound y hy
        · dsimp only
          intro mi2 hmi2
          rcases mem_updateFirst_nodup_key (fun x => x.id)
            review.menu_item_id _ db.menu_items hndm mi2 hmi2 with
            ⟨x, hx, hxid, hy⟩ | ⟨hin, hne⟩
          · subst hy
            dsimp only
            constructor
            · rw [length_ratingsFor_updateFirst hmid db.reviews]
              exact (hagg x hx).1
            · rw [hxid]
              simp only [ratingAvg, ratingsFor, List.length_map]
          · have hp : ∀ y ∈ db.reviews, (y.id == rid) = true →
                (y.menu_item_id == mi2.id) = false := by
              intro y hy hyid
              have hyid2 : y.id = rid := beq_iff_eq.mp hyid
              have hyr : y = review := nodup_key_mem_eq (fun x => x.id)
                db.reviews hndr y review hy hrmem
                (by show y.id = review.id; rw [hyid2, hrid])
              subst hyr
              exact beq_eq_false_iff_ne.mpr (fun hh => hne (by rw [← hh]))
            rw [ratingsFor_updateFirst_of_p hmid db.reviews mi2.id hp]
            exact hagg mi2 hin

/-- A successful `delete_review` re-establishes the aggregate invariant
(recompute over the remaining reviews, or the 0/0 reset). -/
theorem delete_review_core
    (db : ReviewDb) (u : String) (adm : Bool) (rid : ℕ)
    (hndm : (db.menu_items.map (fun x => x.id)).Nodup)
    (hndr : (db.reviews.map (fun x => x.id)).Nodup)
    (hbound : ∀ x ∈ db.reviews, x.id < db.nextId)
    (hagg : ∀ x ∈ db.menu_items,
      x.review_count = (ratingsFor db.reviews x.id).length ∧
      x.avg_rating = ratingAvg (ratingsFor db.reviews x.id))
    (db2 : ReviewDb) (hdb2 : delete_review db u adm rid = .ok db2) :
    ratingAggInv db2 := by
  simp only [delete_review] at hdb2
  split at hdb2
  · exact absurd hdb2 (by simp)
  · rename_i review hfind
    have hfacts : review ∈ db.reviews ∧ review.id = rid := by
      by_cases ha : adm = true
      · rw [if_pos ha] at hfind
        have h1 := List.find?_some hfind
        exact ⟨List.mem_of_find?_eq_some hfind, beq_iff_eq.mp h1⟩
      · rw [if_neg ha] at hfind
        have h1 := List.find?_some hfind
        rw [Bool.and_eq_true] at h1
        exact ⟨List.mem_of_find?_eq_some hfind, beq_iff_eq.mp h1.1⟩
    obtain ⟨hrmem, hrid⟩ := hfacts
    have hp0 : ∀ y ∈ db.reviews, (y.id == rid) = true → y = review := by
      intro y hy hyid
      exact nodup_key_mem_eq (fun x => x.id) db.reviews hndr y review hy hrmem
        (by show y.id = review.id; rw [beq_iff_eq.mp hyid, hrid])
    have hndr2 : ((removeFirst (fun r => r.id == rid) db.reviews).map
        (fun x => x.id)).Nodup :=
      List.Nodup.sublist
        (List.Sublist.map (fun x => x.id)
          (removeFirst_sublist (fun r => r.id == rid) db.reviews)) hndr
    split at hdb2
    · rename_i hlen
      cases hdb2
      refine ⟨?_, ?_, ?_, ?_⟩
      · dsimp only
        rw [menu_ids_updateFirst]
        exact hndm
      · exact hndr2
      · dsimp only
        intro x hx
        exact hbound x (mem_removeFirst hx)
      · dsimp only
        intro mi2 hmi2
        rcases mem_updateFirst_nodup_key (fun x => x.id)
          review.menu_item_id _ db.menu_items hndm mi2 hmi2 with
          ⟨x, hx, hxid, hy⟩ | ⟨hin, hne⟩
        · subst hy
          dsimp only
          constructor
          · rw [hxid]
            simp [ratingsFor]
          · rw [hxid]
            simp only [ratingAvg, ratingsFor, List.length_map]
            rw [if_neg hlen]
        · have hp : ∀ y ∈ db.reviews, (y.id == rid) = true →
              (y.menu_item_id == mi2.id) = false := by
            intro y hy hyid
            have hyr := hp0 y hy hyid
            subst hyr
            exact beq_eq_false_iff_ne.mpr (fun hh => hne (by rw [← hh]))
          rw [ratingsFor_removeFirst_of_p db.reviews mi2.id hp]
          exact hagg mi2 hin
    · rename_i hlen
      cases hdb2
      refine ⟨?_, ?_, ?_, ?_⟩
      · dsimp only
        rw [menu_ids_updateFirst]
        exact hndm
      · exact hndr2
      · dsimp only
        intro x hx
        exact hbound x (mem_removeFirst hx)
      · dsimp only
        intro mi2 hmi2
        rcases mem_updateFirst_nodup_key (fun x => x.id)
          review.menu_item_id _ db.menu_items hndm mi2 hmi2 with
          ⟨x, hx, hxid, hy⟩ | ⟨hin, hne⟩
        · subst hy
          dsimp only
          have hlen0 : ((removeFirst (fun r => r.id == rid) db.reviews).filter
              (fun r => r.menu_item_id == review.menu_item_id)).length = 0 := by
            by_cases hz : ((removeFirst (fun r => r.id == rid)
                db.reviews).filter
                (fun r => r.menu_item_id == review.menu_item_id)).length = 0
            · exact hz
            · exact absurd hz hlen
          constructor
          · rw [hxid]
            simp [ratingsFor, hlen0]
          · rw [hxid]
            simp only [ratingAvg, ratingsFor, List.length_map]
            rw [if_pos hlen0]
        · have hp : ∀ y ∈ db.reviews, (y.id == rid) = true →
              (y.menu_item_id == mi2.id) = false := by
            intro y hy hyid
            have hyr := hp0 y hy hyid
            subst hyr
            exact beq_eq_false_iff_ne.mpr (fun hh => hne (by rw [← hh]))
          rw [ratingsFor_removeFirst_of_p db.reviews mi2.id hp]
          exact hagg mi2 hin

/-- One client review operation preserves the aggregate invariant (an
operation that errors writes nothing). -/
theorem applyReviewOp_preserves_inv (db : ReviewDb) (op : ReviewOp)
    (hinv : ratingAggInv db) : ratingAggInv (applyReviewOp db op) := by
  obtain ⟨hndm, hndr, hbound, hagg⟩ := hinv
  cases op with
  | create cu m r c =>
    cases hc : create_review db cu m r c with
    | error e =>
      simp only [applyReviewOp, hc]
      exact ⟨hndm, hndr, hbound, hagg⟩
    | ok db2 =>
      simp only [applyReviewOp, hc]
      exact create_review_core db cu m r c hndm hndr hbound hagg db2 hc
  | update cu rid ro co =>
    cases hc : update_review db cu rid ro co with
    | error e =>
      simp only [applyReviewOp, hc]
      exact ⟨hndm, hndr, hbound, hagg⟩
    | ok db2 =>
      simp only [applyReviewOp, hc]
      exact update_review_core db cu rid ro co hndm hndr hbound hagg db2 hc
  | delete cu adm rid =>
    cases hc : delete_review db cu adm rid with
    | error e =>
      simp only [applyReviewOp, hc]
      exact ⟨hndm, hndr, hbound, hagg⟩
    | ok db2 =>
      simp only [applyReviewOp, hc]
      exact delete_review_core db cu adm rid hndm hndr hbound hagg db2 hc

/-- C5: starting from any review store satisfying the aggregate invariant,
after any sequence of review create, update and delete operations every
menu item's `avg_rating` equals the mean of its current N ratings
(sum(ri)/N) and `review_count` equals N; deleting the last review leaves
`avg_rating = 0` and `review_count = 0` (the N = 0 case of the
invariant). -/
theorem review_aggregates_invariant (db : ReviewDb) (ops : List ReviewOp)
    (hinv : ratingAggInv db) :
    ratingAggInv (ops.foldl applyReviewOp db) := by
  induction ops generalizing db with
  | nil => exact hinv
  | cons op ops ih =>
    rw [List.foldl_cons]
    exact ih (applyReviewOp db op) (applyReviewOp_preserves_inv db op hinv)

theorem review_aggregates_witness :
    ratingAggInv (List.foldl applyReviewOp dbReviewW opsReviewW) :=
  review_aggregates_invariant dbReviewW opsReviewW
    ⟨by decide, by decide, by decide, by decide⟩
